import Mathlib

/-!
Verification development for the enterprise-rag-platform repository.

This file shallowly embeds the token-budget ledger
(`server/app/core/token_budget.py`), the query pipelines
(`server/app/api/query.py`, `server/app/api/query_stream.py`), the vector
retriever (`server/app/core/retrieval.py`) and the chunking stage of the
ingestion pipeline (`worker/jobs/ingest_index.py`), and proves the stated
properties about them.

Conventions: Python `int` is `Int`; Python float arithmetic on the small
token-estimate expressions is modelled exactly over `ℚ`; a fallible Python
function returns `Except`; exceptions that roll back the enclosing database
transaction are modelled by returning the unchanged ledger state together
with the error value.
-/

/-- A `workspace_daily_usage` row: the two counters of `WorkspaceDailyUsage`
that the ledger operations read and write. -/
structure UsageRow where
  tokens_used : Int
  tokens_reserved : Int
deriving Repr, DecidableEq

/-- Ledger state of one (workspace, UTC day): `none` when the daily row does
not exist yet. -/
abbrev LedgerState := Option UsageRow

/-- Payload of `BudgetExceededError` (`core/errors.py`): its constructor
stores `used`, `reserved`, `limit` and computes
`remaining = max(0, limit - (used + reserved))`. -/
structure BudgetExceededInfo where
  used : Int
  reserved : Int
  limit : Int
  remaining : Int
deriving Repr, DecidableEq

/-- `BudgetExceededError.__init__`: the `remaining` field is derived from the
other three. -/
def mkBudgetExceeded (used reserved limit : Int) : BudgetExceededInfo :=
  ⟨used, reserved, limit, max 0 (limit - (used + reserved))⟩

/-- The two exception types raised by the ledger (`core/errors.py`). -/
inductive BudgetError where
  | budgetExceeded (info : BudgetExceededInfo)
  | invalidReservation (msg : String)
deriving Repr, DecidableEq

/-- A Python value passed as an `amount` argument: either an `int`, or a
value of some other runtime type (float, str, None, ...). -/
inductive PyAmount where
  | intVal (n : Int)
  | nonIntVal
deriving Repr, DecidableEq

/-- `_ensure_non_negative_amount` (`token_budget.py`): rejects non-`int`
values and negative integers before any database access. -/
def _ensure_non_negative_amount : PyAmount → Except BudgetError Int
  | .nonIntVal => .error (.invalidReservation "amount must be an integer")
  | .intVal n =>
      if n < 0 then .error (.invalidReservation "amount must be >= 0") else .ok n

/-- `get_or_create_daily_row`: insert-if-missing (conflict-ignore) followed by
a locked select; a freshly inserted row has both counters at zero. -/
def get_or_create_daily_row (s : LedgerState) : UsageRow := s.getD ⟨0, 0⟩

/-- Snapshot returned by `reserve_tokens`. -/
structure ReserveSnapshot where
  reserved : Int
  remaining : Int
  limit : Int
deriving Repr, DecidableEq

/-- Result dict of `commit_usage`. -/
structure CommitResult where
  used_now : Int
  reserved_now : Int
deriving Repr, DecidableEq

/-- `reserve_tokens` (`token_budget.py`, lines 88-121).  On an exception the
transaction opened by the call rolls back, so the state component of the
result is the unchanged input state. -/
def reserve_tokens (token_limit reservation_ttl_seconds : Int) (amount : PyAmount)
    (s : LedgerState) : LedgerState × Except BudgetError ReserveSnapshot :=
  match _ensure_non_negative_amount amount with
  | .error e => (s, .error e)
  | .ok reservation_amount =>
    match _ensure_non_negative_amount (.intVal reservation_ttl_seconds) with
    | .error e => (s, .error e)
    | .ok _ =>
      let row := get_or_create_daily_row s
      let used := row.tokens_used
      let reserved := row.tokens_reserved
      let remaining := token_limit - (used + reserved)
      if reservation_amount > remaining then
        (s, .error (.budgetExceeded (mkBudgetExceeded used reserved token_limit)))
      else
        let reserved_now := reserved + reservation_amount
        let remaining_now := max 0 (token_limit - (used + reserved_now))
        (some ⟨used, reserved_now⟩, .ok ⟨reserved_now, remaining_now, token_limit⟩)

/-- `release_tokens` (`token_budget.py`, lines 124-135). -/
def release_tokens (amount : PyAmount) (s : LedgerState) :
    LedgerState × Except BudgetError Int :=
  match _ensure_non_negative_amount amount with
  | .error e => (s, .error e)
  | .ok release_amount =>
    let row := get_or_create_daily_row s
    let reserved := row.tokens_reserved
    if release_amount > reserved then
      (s, .error (.invalidReservation "Cannot release more tokens than currently reserved"))
    else
      let reserved_now := reserved - release_amount
      (some ⟨row.tokens_used, reserved_now⟩, .ok reserved_now)

/-- `commit_usage` (`token_budget.py`, lines 138-152). -/
def commit_usage (amount : PyAmount) (s : LedgerState) :
    LedgerState × Except BudgetError CommitResult :=
  match _ensure_non_negative_amount amount with
  | .error e => (s, .error e)
  | .ok usage_amount =>
    let row := get_or_create_daily_row s
    let reserved := row.tokens_reserved
    let used := row.tokens_used
    if usage_amount > reserved then
      (s, .error (.invalidReservation "Cannot commit more tokens than currently reserved"))
    else
      (some ⟨used + usage_amount, reserved - usage_amount⟩,
       .ok ⟨used + usage_amount, reserved - usage_amount⟩)

/-- A Python `datetime.date`. -/
structure PyDate where
  year : Int
  month : Nat
  day : Nat
deriving Repr, DecidableEq

/-- Gregorian leap-year rule used by `datetime`. -/
def isLeapYear (y : Int) : Bool :=
  (y % 4 == 0 && y % 100 != 0) || (y % 400 == 0)

/-- Length of a month in the proleptic Gregorian calendar. -/
def daysInMonth (y : Int) (m : Nat) : Nat :=
  if m = 2 then (if isLeapYear y then 29 else 28)
  else if m = 4 ∨ m = 6 ∨ m = 9 ∨ m = 11 then 30
  else 31

/-- `usage_date + timedelta(days=1)` on a calendar date. -/
def nextDay (d : PyDate) : PyDate :=
  if d.day < daysInMonth d.year d.month then ⟨d.year, d.month, d.day + 1⟩
  else if d.month < 12 then ⟨d.year, d.month + 1, 1⟩
  else ⟨d.year + 1, 1, 1⟩

/-- A timezone-aware UTC `datetime`. -/
structure UtcDateTime where
  date : PyDate
  hour : Nat
  minute : Nat
  second : Nat
deriving Repr, DecidableEq

/-- `_next_reset_at` (`token_budget.py`, lines 23-24):
`datetime.combine(usage_date + timedelta(days=1), time.min, tzinfo=UTC)`. -/
def _next_reset_at (usage_date : PyDate) : UtcDateTime :=
  ⟨nextDay usage_date, 0, 0, 0⟩

/-- Result dict of `get_budget_status`. -/
structure BudgetStatus where
  used : Int
  reserved : Int
  limit : Int
  remaining : Int
  resets_at : UtcDateTime
deriving Repr, DecidableEq

/-- `get_budget_status` (`token_budget.py`, lines 155-185): a plain select
with no insert and no lock; a missing row reports zeroes. -/
def get_budget_status (token_limit : Int) (usage_date : PyDate) (s : LedgerState) :
    BudgetStatus :=
  let used := match s with | none => 0 | some row => row.tokens_used
  let reserved := match s with | none => 0 | some row => row.tokens_reserved
  ⟨used, reserved, token_limit, max 0 (token_limit - (used + reserved)),
   _next_reset_at usage_date⟩

/-- `get_budget_status` as a state transformer: the database interaction is a
single read-only select, so the ledger state passes through unchanged. -/
def get_budget_status_step (token_limit : Int) (usage_date : PyDate) (s : LedgerState) :
    LedgerState × BudgetStatus :=
  (s, get_budget_status token_limit usage_date s)

/-- Invariant P1 of the spec on one workspace-day ledger state. -/
def BudgetInvariant (token_limit : Int) : LedgerState → Prop
  | none => True
  | some row =>
      0 ≤ row.tokens_used ∧ 0 ≤ row.tokens_reserved ∧
      row.tokens_used + row.tokens_reserved ≤ token_limit

instance (token_limit : Int) : (s : LedgerState) → Decidable (BudgetInvariant token_limit s)
  | none => .isTrue trivial
  | some _ => inferInstanceAs (Decidable (_ ∧ _ ∧ _))

lemma ensure_ok {a : Int} (ha : 0 ≤ a) :
    _ensure_non_negative_amount (.intVal a) = .ok a := by
  simp [_ensure_non_negative_amount, not_lt.mpr ha]

lemma reserve_tokens_ok {l ttl a used reserved : Int} (ha : 0 ≤ a) (httl : 0 ≤ ttl)
    (h : a ≤ l - (used + reserved)) :
    reserve_tokens l ttl (.intVal a) (some ⟨used, reserved⟩) =
      (some ⟨used, reserved + a⟩,
       .ok ⟨reserved + a, max 0 (l - (used + (reserved + a))), l⟩) := by
  simp [reserve_tokens, ensure_ok ha, ensure_ok httl, get_or_create_daily_row]
  omega

lemma reserve_tokens_exceeded {l ttl a used reserved : Int} (ha : 0 ≤ a) (httl : 0 ≤ ttl)
    (h : a > l - (used + reserved)) :
    reserve_tokens l ttl (.intVal a) (some ⟨used, reserved⟩) =
      (some ⟨used, reserved⟩,
       .error (.budgetExceeded (mkBudgetExceeded used reserved l))) := by
  simp [reserve_tokens, ensure_ok ha, ensure_ok httl, get_or_create_daily_row]
  omega

lemma release_tokens_ok {a used reserved : Int} (ha : 0 ≤ a) (h : a ≤ reserved) :
    release_tokens (.intVal a) (some ⟨used, reserved⟩) =
      (some ⟨used, reserved - a⟩, .ok (reserved - a)) := by
  simp [release_tokens, ensure_ok ha, get_or_create_daily_row]
  omega

lemma commit_usage_ok {a used reserved : Int} (ha : 0 ≤ a) (h : a ≤ reserved) :
    commit_usage (.intVal a) (some ⟨used, reserved⟩) =
      (some ⟨used + a, reserved - a⟩, .ok ⟨used + a, reserved - a⟩) := by
  simp [commit_usage, ensure_ok ha, get_or_create_daily_row]
  omega

/-- C1: on a workspace-day row satisfying `used ≥ 0`, `reserved ≥ 0`,
`used + reserved ≤ limit`, a reservation of `a ≥ 0` fails with
`BudgetExceeded` carrying the pre-state figures exactly when
`a > limit - used - reserved` (leaving the row unchanged), and otherwise adds
`a` to `reserved` and returns the snapshot; and the invariant is preserved by
every `reserve_tokens`, `commit_usage` and `release_tokens` call (with any
amount argument) started from such a state. -/
theorem budget_reserve_spec_and_invariant_preserved
    (token_limit ttl a used reserved : Int) (b : PyAmount)
    (hu : 0 ≤ used) (hr : 0 ≤ reserved) (hl : used + reserved ≤ token_limit)
    (ha : 0 ≤ a) (httl : 0 ≤ ttl) :
    (a > token_limit - used - reserved →
      reserve_tokens token_limit ttl (.intVal a) (some ⟨used, reserved⟩) =
        (some ⟨used, reserved⟩,
         .error (.budgetExceeded
            ⟨used, reserved, token_limit, token_limit - (used + reserved)⟩))) ∧
    (a ≤ token_limit - used - reserved →
      reserve_tokens token_limit ttl (.intVal a) (some ⟨used, reserved⟩) =
        (some ⟨used, reserved + a⟩,
         .ok ⟨reserved + a, token_limit - (used + (reserved + a)), token_limit⟩)) ∧
    BudgetInvariant token_limit
      (reserve_tokens token_limit ttl b (some ⟨used, reserved⟩)).1 ∧
    BudgetInvariant token_limit (commit_usage b (some ⟨used, reserved⟩)).1 ∧
    BudgetInvariant token_limit (release_tokens b (some ⟨used, reserved⟩)).1 := by
  refine ⟨?_, ?_, ?_, ?_, ?_⟩
  · intro h
    rw [reserve_tokens_exceeded ha httl (by omega)]
    simp [mkBudgetExceeded]
    omega
  · intro h
    rw [reserve_tokens_ok ha httl (by omega)]
    simp
    omega
  · rcases b with n | _
    · by_cases hn : 0 ≤ n
      · by_cases hc : n ≤ token_limit - (used + reserved)
        · rw [reserve_tokens_ok hn httl hc]
          simp only [BudgetInvariant]
          omega
        · rw [reserve_tokens_exceeded hn httl (by omega)]
          simp only [BudgetInvariant]
          omega
      · simp [reserve_tokens, _ensure_non_negative_amount, not_le.mp hn]
        simp only [BudgetInvariant]
        omega
    · simp [reserve_tokens, _ensure_non_negative_amount]
      simp only [BudgetInvariant]
      omega
  · rcases b with n | _
    · by_cases hn : 0 ≤ n
      · by_cases hc : n ≤ reserved
        · rw [commit_usage_ok hn hc]
          simp only [BudgetInvariant]
          omega
        · simp [commit_usage, ensure_ok hn, get_or_create_daily_row, not_le.mp hc]
          simp only [BudgetInvariant]
          omega
      · simp [commit_usage, _ensure_non_negative_amount, not_le.mp hn]
        simp only [BudgetInvariant]
        omega
    · simp [commit_usage, _ensure_non_negative_amount]
      simp only [BudgetInvariant]
      omega
  · rcases b with n | _
    · by_cases hn : 0 ≤ n
      · by_cases hc : n ≤ reserved
        · rw [release_tokens_ok hn hc]
          simp only [BudgetInvariant]
          omega
        · simp [release_tokens, ensure_ok hn, get_or_create_daily_row, not_le.mp hc]
          simp only [BudgetInvariant]
          omega
      · simp [release_tokens, _ensure_non_negative_amount, not_le.mp hn]
        simp only [BudgetInvariant]
        omega
    · simp [release_tokens, _ensure_non_negative_amount]
      simp only [BudgetInvariant]
      omega

/-- C1 witness: the budget-race scenario of the spec with limit 100: the row
`(used 0, reserved 60)` rejects a further 60 and the invariant holds after a
reserve of 60 from the empty row. -/
theorem budget_reserve_spec_witness :
    reserve_tokens 100 600 (.intVal 60) (some ⟨0, 60⟩) =
      (some ⟨0, 60⟩, .error (.budgetExceeded ⟨0, 60, 100, 40⟩)) ∧
    BudgetInvariant 100 (reserve_tokens 100 600 (.intVal 60) (some ⟨0, 0⟩)).1 :=
  ⟨(budget_reserve_spec_and_invariant_preserved 100 600 60 0 60 (.intVal 60)
      (by decide) (by decide) (by decide) (by decide) (by decide)).1 (by decide),
   (budget_reserve_spec_and_invariant_preserved 100 600 60 0 0 (.intVal 60)
      (by decide) (by decide) (by decide) (by decide) (by decide)).2.2.1⟩

/-- C2: on any workspace-day row, `commit_usage a` with `a ≥ 0` fails with
`InvalidReservation` exactly when `a > reserved`, leaving both counters
unchanged, and otherwise moves `a` from `reserved` to `used`;
`release_tokens a` fails the same way and otherwise subtracts `a` from
`reserved` leaving `used` unchanged. -/
theorem commit_release_spec (a used reserved : Int) (ha : 0 ≤ a) :
    (a > reserved →
      commit_usage (.intVal a) (some ⟨used, reserved⟩) =
        (some ⟨used, reserved⟩,
         .error (.invalidReservation "Cannot commit more tokens than currently reserved")) ∧
      release_tokens (.intVal a) (some ⟨used, reserved⟩) =
        (some ⟨used, reserved⟩,
         .error (.invalidReservation "Cannot release more tokens than currently reserved"))) ∧
    (a ≤ reserved →
      commit_usage (.intVal a) (some ⟨used, reserved⟩) =
        (some ⟨used + a, reserved - a⟩, .ok ⟨used + a, reserved - a⟩) ∧
      release_tokens (.intVal a) (some ⟨used, reserved⟩) =
        (some ⟨used, reserved - a⟩, .ok (reserved - a))) := by
  constructor
  · intro h
    constructor
    · simp [commit_usage, ensure_ok ha, get_or_create_daily_row, h]
    · simp [release_tokens, ensure_ok ha, get_or_create_daily_row, h]
  · intro h
    exact ⟨commit_usage_ok ha h, release_tokens_ok ha h⟩

/-- C2 witness: committing 30 out of 30 reserved empties the reservation, and
releasing 31 out of 30 fails. -/
theorem commit_release_spec_witness :
    commit_usage (.intVal 30) (some ⟨5, 30⟩) = (some ⟨35, 0⟩, .ok ⟨35, 0⟩) ∧
    release_tokens (.intVal 31) (some ⟨5, 30⟩) =
      (some ⟨5, 30⟩,
       .error (.invalidReservation "Cannot release more tokens than currently reserved")) :=
  ⟨((commit_release_spec 30 5 30 (by decide)).2 (by decide)).1,
   ((commit_release_spec 31 5 30 (by decide)).1 (by decide)).2⟩

/-- C10: a negative or non-integer amount makes all three ledger operations
fail with `InvalidReservation` while leaving the ledger state (including
whether the row exists) unchanged, and amount `0` is accepted by all three
operations on any row satisfying the invariant. -/
theorem amount_validation_spec (token_limit ttl used reserved : Int)
    (s : LedgerState) (a : PyAmount)
    (hbad : ∀ n : Int, a = .intVal n → n < 0)
    (hu : 0 ≤ used) (hr : 0 ≤ reserved) (hl : used + reserved ≤ token_limit)
    (httl : 0 ≤ ttl) :
    ((reserve_tokens token_limit ttl a s).1 = s ∧
      ∃ m, (reserve_tokens token_limit ttl a s).2 =
        .error (.invalidReservation m)) ∧
    ((release_tokens a s).1 = s ∧
      ∃ m, (release_tokens a s).2 = .error (.invalidReservation m)) ∧
    ((commit_usage a s).1 = s ∧
      ∃ m, (commit_usage a s).2 = .error (.invalidReservation m)) ∧
    (reserve_tokens token_limit ttl (.intVal 0) (some ⟨used, reserved⟩)).2 =
      .ok ⟨reserved, max 0 (token_limit - (used + reserved)), token_limit⟩ ∧
    (release_tokens (.intVal 0) (some ⟨used, reserved⟩)).2 = .ok reserved ∧
    (commit_usage (.intVal 0) (some ⟨used, reserved⟩)).2 = .ok ⟨used, reserved⟩ := by
  have hbad' : ∃ m, _ensure_non_negative_amount a = .error (.invalidReservation m) := by
    rcases a with n | _
    · have := hbad n rfl
      exact ⟨"amount must be >= 0", by simp [_ensure_non_negative_amount, this]⟩
    · exact ⟨"amount must be an integer", by simp [_ensure_non_negative_amount]⟩
  obtain ⟨m, hm⟩ := hbad'
  refine ⟨⟨?_, m, ?_⟩, ⟨?_, m, ?_⟩, ⟨?_, m, ?_⟩, ?_, ?_, ?_⟩
  · simp [reserve_tokens, hm]
  · simp [reserve_tokens, hm]
  · simp [release_tokens, hm]
  · simp [release_tokens, hm]
  · simp [commit_usage, hm]
  · simp [commit_usage, hm]
  · rw [reserve_tokens_ok le_rfl httl (by omega)]
    simp
  · rw [release_tokens_ok le_rfl hr]
    simp
  · rw [commit_usage_ok le_rfl hr]
    simp

/-- C10 witness: a reserve of `-5` on a missing row leaves the row missing and
fails, and commit of `0` succeeds without changing the counters. -/
theorem amount_validation_spec_witness :
    (reserve_tokens 100000 600 (.intVal (-5)) none).1 = none ∧
    (commit_usage (.intVal 0) (some ⟨0, 0⟩)).2 = .ok ⟨0, 0⟩ :=
  ⟨(amount_validation_spec 100000 600 0 0 none (.intVal (-5))
      (by intro n h; cases h; decide)
      (by decide) (by decide) (by decide) (by decide)).1.1,
   (amount_validation_spec 100000 600 0 0 none (.intVal (-5))
      (by intro n h; cases h; decide)
      (by decide) (by decide) (by decide) (by decide)).2.2.2.2.2⟩

/-- C7: `get_budget_status` reports zeroes when the row is missing, the row
counters otherwise, always `remaining = max 0 (limit - used - reserved)` and
`resets_at` equal to midnight UTC of the next day (in particular
2026-02-16T00:00:00Z for usage date 2026-02-15), and it leaves the ledger
state unchanged. -/
theorem get_budget_status_spec (token_limit : Int) (d : PyDate) (s : LedgerState) :
    get_budget_status token_limit d none =
      ⟨0, 0, token_limit, max 0 token_limit, _next_reset_at d⟩ ∧
    (∀ row : UsageRow, get_budget_status token_limit d (some row) =
      ⟨row.tokens_used, row.tokens_reserved, token_limit,
       max 0 (token_limit - (row.tokens_used + row.tokens_reserved)),
       _next_reset_at d⟩) ∧
    (get_budget_status token_limit d s).remaining =
      max 0 (token_limit - ((get_budget_status token_limit d s).used +
        (get_budget_status token_limit d s).reserved)) ∧
    (get_budget_status token_limit d s).resets_at = ⟨nextDay d, 0, 0, 0⟩ ∧
    get_budget_status_step token_limit d s = (s, get_budget_status token_limit d s) ∧
    _next_reset_at ⟨2026, 2, 15⟩ = ⟨⟨2026, 2, 16⟩, 0, 0, 0⟩ := by
  refine ⟨?_, ?_, ?_, ?_, rfl, by decide⟩
  · simp [get_budget_status]
  · intro row
    simp [get_budget_status]
  · cases s <;> simp [get_budget_status]
  · cases s <;> simp [get_budget_status, _next_reset_at]

/-- `RetrievedChunk` (`core/retrieval.py`): one retrieval result row. -/
structure RetrievedChunk where
  chunk_id : Nat
  document_id : Nat
  page_number : Int
  score : ℚ
  chunk_text : String
  page_text : String
  token_count : Int
deriving Repr, DecidableEq

/-- Python `str.strip()`: drop leading and trailing whitespace.  (Defined by
structural recursion over the character list so that it evaluates.) -/
def pyStrip (s : String) : String :=
  String.mk (((s.toList.dropWhile Char.isWhitespace).reverse.dropWhile
    Char.isWhitespace).reverse)

/-- `RetrievedChunk.snippet`: first 300 characters of the single-space
collapsed chunk text. -/
def snippet_of (chunk_text : String) : String :=
  (String.intercalate " "
    ((chunk_text.split Char.isWhitespace).filter (fun p => p ≠ ""))).take 300

/-- The configuration fields of `Settings` (`config.py`) read by the query
pipelines and the ledger. -/
structure AppSettings where
  DAILY_TOKEN_LIMIT : Int
  RESERVATION_TTL_SECONDS : Int
  LLM_MAX_OUTPUT_TOKENS : Int
  MAX_QUESTION_CHARS : Int
  TOP_K : Nat
deriving Repr, DecidableEq

/-- `PROMPT_TEMPLATE_TOKENS` (`api/query.py` line 26). -/
def PROMPT_TEMPLATE_TOKENS : Int := 200

/-- `INSUFFICIENT_CONTEXT_MESSAGE` (`core/prompts.py`). -/
def INSUFFICIENT_CONTEXT_MESSAGE : String :=
  "Insufficient context in the provided documents."

/-- `_estimate_query_tokens` (`api/query.py` lines 33-34):
`int(math.ceil((len(question) / 4) * 1.3))`, modelled exactly over `ℚ`. -/
def _estimate_query_tokens (question : String) : Int :=
  ⌈((question.length : ℚ) / 4) * 1.3⌉

/-- `_estimate_llm_input_tokens` (`api/query.py` lines 37-38):
`int(math.ceil(sum(chunk.token_count) + PROMPT_TEMPLATE_TOKENS + len(question)/4))`. -/
def _estimate_llm_input_tokens (question : String) (chunks : List RetrievedChunk) : Int :=
  ⌈((((chunks.map (fun c => c.token_count)).sum : Int) : ℚ) + (PROMPT_TEMPLATE_TOKENS : ℚ) +
    ((question.length : ℚ) / 4))⌉

/-- The total both pipelines pass to `reserve_tokens`
(`api/query.py` lines 186-188, `api/query_stream.py` lines 119-121). -/
def estimated_total (cfg : AppSettings) (question : String)
    (chunks : List RetrievedChunk) : Int :=
  _estimate_query_tokens question + _estimate_llm_input_tokens question chunks +
    cfg.LLM_MAX_OUTPUT_TOKENS

/-- `LLMResult` (`core/llm.py`). -/
structure LLMResult where
  answer : String
  input_tokens : Int
  output_tokens : Int
  total_tokens : Int
deriving Repr, DecidableEq

/-- Outcome of the unary LLM call `answer_question_strict_grounded`: a result,
or an exception (`fastapi.HTTPException` or anything else). -/
inductive LLMOutcome where
  | ok (result : LLMResult)
  | httpError
  | genericError
deriving Repr, DecidableEq

/-- Outcome of consuming `stream_answer_question_strict_grounded` in
`run_query_stream`: the deltas seen, then either normal completion (with or
without a terminal usage result), a client disconnect detected between
deltas (`ConnectionError`), or an exception. -/
inductive StreamLLMOutcome where
  | finished (deltas : List String) (result : Option LLMResult)
  | disconnected (deltas : List String)
  | httpError (deltas : List String)
  | genericError (deltas : List String)
deriving Repr, DecidableEq

/-- A successful ledger mutation performed by a pipeline run. -/
inductive LedgerOp where
  | reserveOp (amount : Int)
  | commitOp (amount : Int)
  | releaseOp (amount : Int)
deriving Repr, DecidableEq

/-- Amounts of the commit operations in a trace. -/
def commitAmounts (tr : List LedgerOp) : List Int :=
  tr.filterMap fun op => match op with | .commitOp a => some a | _ => none

/-- Amounts of the release operations in a trace. -/
def releaseAmounts (tr : List LedgerOp) : List Int :=
  tr.filterMap fun op => match op with | .releaseOp a => some a | _ => none

/-- `QueryCitation` (`schemas/query.py`) as shaped by both pipelines. -/
structure QueryCitation where
  document_id : Nat
  page_number : Int
  chunk_id : Nat
  score : ℚ
  snippet : String
deriving Repr, DecidableEq

/-- The citation built from one retrieved chunk
(`api/query.py` lines 251-260). -/
def citation_of (c : RetrievedChunk) : QueryCitation :=
  ⟨c.document_id, c.page_number, c.chunk_id, c.score, snippet_of c.chunk_text⟩

/-- Terminal outcome of `run_query`: a response, or the HTTP error raised
(402 budget, other `HTTPException`, or a 500 from the generic handler);
`unhandled` marks the path where the release inside an exception handler
itself threw. -/
inductive QueryOutcome where
  | ok (answer : String) (citations : List QueryCitation) (usage : BudgetStatus)
  | budgetExceeded (info : BudgetExceededInfo)
  | httpError
  | internalError
  | unhandled
deriving Repr, DecidableEq

/-- Observable result of one `run_query` call: final ledger state, the ledger
mutations performed in order, the outcome, and whether the LLM was called. -/
structure RunResult where
  state : LedgerState
  trace : List LedgerOp
  outcome : QueryOutcome
  llmCalled : Bool
deriving Repr, DecidableEq

/-- External collaborators of one pipeline run: the document-readiness lookup,
the embedding token count, and the retrieval result. -/
structure QueryEnv where
  document_status : Option String
  tokens_embed : Int
  chunks : List RetrievedChunk
deriving Repr, DecidableEq

/-- The `except HTTPException` / generic `except Exception` handlers of
`run_query` (lines 301-332): release the outstanding reservation if positive,
then surface the error.  The release call is not guarded, so a failure there
escapes the handler. -/
def unary_handle (reserved_amount : Int) (out : QueryOutcome) (llmCalled : Bool)
    (s : LedgerState) (tr : List LedgerOp) : RunResult :=
  if reserved_amount > 0 then
    match release_tokens (.intVal reserved_amount) s with
    | (s2, .ok _) => ⟨s2, tr ++ [.releaseOp reserved_amount], out, llmCalled⟩
    | (s2, .error _) => ⟨s2, tr, .unhandled, llmCalled⟩
  else ⟨s, tr, out, llmCalled⟩

/-- Settlement shared by both branches of `run_query`
(lines 198-229 and 238-249): commit `min actual est`, release the remainder
when positive, then read the status snapshot.  A ledger exception here falls
into the generic handler with the reservation still marked outstanding. -/
def unary_settle (cfg : AppSettings) (usage_date : PyDate) (est actual : Int)
    (answer : String) (citations : List QueryCitation) (llmCalled : Bool)
    (s : LedgerState) (tr : List LedgerOp) : RunResult :=
  let committed := min actual est
  match commit_usage (.intVal committed) s with
  | (s2, .error _) => unary_handle est .internalError llmCalled s2 tr
  | (s2, .ok _) =>
    let tr2 := tr ++ [.commitOp committed]
    if est > committed then
      match release_tokens (.intVal (est - committed)) s2 with
      | (s3, .error _) => unary_handle est .internalError llmCalled s3 tr2
      | (s3, .ok _) =>
        ⟨s3, tr2 ++ [.releaseOp (est - committed)],
         .ok answer citations (get_budget_status cfg.DAILY_TOKEN_LIMIT usage_date s3),
         llmCalled⟩
    else
      ⟨s2, tr2,
       .ok answer citations (get_budget_status cfg.DAILY_TOKEN_LIMIT usage_date s2),
       llmCalled⟩

/-- `run_query` (`api/query.py` lines 134-332), from the point where the
ledger can be touched: validation and document readiness first, then
embed/retrieve (supplied by `env`), reserve, branch on retrieval emptiness,
LLM call, settlement, and the exception handlers. -/
def run_query (cfg : AppSettings) (payload_question : String) (usage_date : PyDate)
    (env : QueryEnv) (llm : LLMOutcome) (s0 : LedgerState) : RunResult :=
  let question := pyStrip payload_question
  if question = "" ∨ (question.length : Int) > cfg.MAX_QUESTION_CHARS then
    ⟨s0, [], .httpError, false⟩
  else
    match env.document_status with
    | none => ⟨s0, [], .httpError, false⟩
    | some st =>
      if st ≠ "ready" then ⟨s0, [], .httpError, false⟩
      else
        let est := estimated_total cfg question env.chunks
        match reserve_tokens cfg.DAILY_TOKEN_LIMIT cfg.RESERVATION_TTL_SECONDS
            (.intVal est) s0 with
        | (s1, .error (.budgetExceeded info)) => ⟨s1, [], .budgetExceeded info, false⟩
        | (s1, .error (.invalidReservation _)) => ⟨s1, [], .internalError, false⟩
        | (s1, .ok _) =>
          let tr := [LedgerOp.reserveOp est]
          if env.chunks.isEmpty then
            unary_settle cfg usage_date est env.tokens_embed
              INSUFFICIENT_CONTEXT_MESSAGE [] false s1 tr
          else
            match llm with
            | .ok r =>
              let answer := if r.answer = "" then INSUFFICIENT_CONTEXT_MESSAGE
                else r.answer
              unary_settle cfg usage_date est (env.tokens_embed + r.total_tokens)
                answer (env.chunks.map citation_of) true s1 tr
            | .httpError => unary_handle est .httpError true s1 tr
            | .genericError => unary_handle est .internalError true s1 tr

/-- One server-sent event of `run_query_stream`. -/
inductive StreamEvent where
  | meta (top_k : Nat)
  | delta (text : String)
  | citationsEvent (citations : List QueryCitation)
  | usageEvent (usage : BudgetStatus)
  | done
  | errorEvent (code : String)
deriving Repr, DecidableEq

/-- Observable result of one `run_query_stream` call. -/
structure StreamRunResult where
  state : LedgerState
  trace : List LedgerOp
  events : List StreamEvent
  llmCalled : Bool
deriving Repr, DecidableEq

/-- Guarded release used inside every exception handler of
`run_query_stream`: a failure of the release itself is swallowed after
`db.rollback()`. -/
def stream_guarded_release (reserved_amount : Int) (s : LedgerState)
    (tr : List LedgerOp) : LedgerState × List LedgerOp :=
  if reserved_amount > 0 then
    match release_tokens (.intVal reserved_amount) s with
    | (s2, .ok _) => (s2, tr ++ [.releaseOp reserved_amount])
    | (s2, .error _) => (s2, tr)
  else (s, tr)

/-- Settlement of `run_query_stream` (lines 136-171 and 200-245): commit
`min actual est`, release the remainder when positive, then emit the
`citations`, `usage` and `done` events.  A ledger exception here falls into
the generic handler, which releases under guard and emits an error event. -/
def stream_settle (cfg : AppSettings) (usage_date : PyDate) (est actual : Int)
    (citations : List QueryCitation) (preEvents : List StreamEvent)
    (llmCalled : Bool) (s : LedgerState) (tr : List LedgerOp) : StreamRunResult :=
  let committed := min actual est
  match commit_usage (.intVal committed) s with
  | (s2, .error _) =>
    let out := stream_guarded_release est s2 tr
    ⟨out.1, out.2, preEvents ++ [.errorEvent "QUERY_FAILED"], llmCalled⟩
  | (s2, .ok _) =>
    let tr2 := tr ++ [.commitOp committed]
    if est > committed then
      match release_tokens (.intVal (est - committed)) s2 with
      | (s3, .error _) =>
        let out := stream_guarded_release est s3 tr2
        ⟨out.1, out.2, preEvents ++ [.errorEvent "QUERY_FAILED"], llmCalled⟩
      | (s3, .ok _) =>
        ⟨s3, tr2 ++ [.releaseOp (est - committed)],
         preEvents ++ [.citationsEvent citations,
           .usageEvent (get_budget_status cfg.DAILY_TOKEN_LIMIT usage_date s3),
           .done],
         llmCalled⟩
    else
      ⟨s2, tr2,
       preEvents ++ [.citationsEvent citations,
         .usageEvent (get_budget_status cfg.DAILY_TOKEN_LIMIT usage_date s2),
         .done],
       llmCalled⟩

/-- `run_query_stream` (`api/query_stream.py` lines 54-310): the SSE variant.
Validation failures emit an `error` event; after a successful reservation a
`meta` event is emitted; the no-chunk branch emits the sentinel delta and
settles; the LLM loop forwards non-empty deltas and is interrupted by
disconnect or exceptions, whose handlers release the outstanding reservation
under guard (emitting no further event on disconnect, an `error` event
otherwise). -/
def run_query_stream (cfg : AppSettings) (payload_question : String)
    (usage_date : PyDate) (env : QueryEnv) (llm : StreamLLMOutcome)
    (s0 : LedgerState) : StreamRunResult :=
  let question := pyStrip payload_question
  if question = "" ∨ (question.length : Int) > cfg.MAX_QUESTION_CHARS then
    ⟨s0, [], [.errorEvent "INVALID_QUESTION"], false⟩
  else
    match env.document_status with
    | none => ⟨s0, [], [.errorEvent "DOCUMENT_NOT_FOUND"], false⟩
    | some st =>
      if st ≠ "ready" then ⟨s0, [], [.errorEvent "DOCUMENT_NOT_READY"], false⟩
      else
        let est := estimated_total cfg question env.chunks
        match reserve_tokens cfg.DAILY_TOKEN_LIMIT cfg.RESERVATION_TTL_SECONDS
            (.intVal est) s0 with
        | (s1, .error (.budgetExceeded _)) =>
            ⟨s1, [], [.errorEvent "BUDGET_EXCEEDED"], false⟩
        | (s1, .error (.invalidReservation _)) =>
            ⟨s1, [], [.errorEvent "QUERY_FAILED"], false⟩
        | (s1, .ok _) =>
          let tr := [LedgerOp.reserveOp est]
          let metaEvents := [StreamEvent.meta cfg.TOP_K]
          if env.chunks.isEmpty then
            stream_settle cfg usage_date est env.tokens_embed []
              (metaEvents ++ [.delta INSUFFICIENT_CONTEXT_MESSAGE]) false s1 tr
          else
            match llm with
            | .disconnected deltas =>
              let deltaEvents := ((deltas.filter (fun t => t ≠ "")).map StreamEvent.delta)
              let out := stream_guarded_release est s1 tr
              ⟨out.1, out.2, metaEvents ++ deltaEvents, true⟩
            | .httpError deltas =>
              let deltaEvents := ((deltas.filter (fun t => t ≠ "")).map StreamEvent.delta)
              let out := stream_guarded_release est s1 tr
              ⟨out.1, out.2, metaEvents ++ deltaEvents ++ [.errorEvent "HTTP_ERROR"], true⟩
            | .genericError deltas =>
              let deltaEvents := ((deltas.filter (fun t => t ≠ "")).map StreamEvent.delta)
              let out := stream_guarded_release est s1 tr
              ⟨out.1, out.2, metaEvents ++ deltaEvents ++ [.errorEvent "QUERY_FAILED"], true⟩
            | .finished deltas result =>
              let streamed_parts := deltas.filter (fun t => t ≠ "")
              let deltaEvents := streamed_parts.map StreamEvent.delta
              let stream_result := match result with
                | some r => r
                | none => ⟨pyStrip (String.join streamed_parts), 0, 0, 0⟩
              let answer := if stream_result.answer = "" then INSUFFICIENT_CONTEXT_MESSAGE
                else stream_result.answer
              let extraDelta := if streamed_parts.isEmpty ∧
                  answer = INSUFFICIENT_CONTEXT_MESSAGE then [StreamEvent.delta answer]
                else []
              stream_settle cfg usage_date est
                (env.tokens_embed + stream_result.total_tokens)
                (env.chunks.map citation_of)
                (metaEvents ++ deltaEvents ++ extraDelta) true s1 tr

lemma _estimate_query_tokens_nonneg (q : String) : 0 ≤ _estimate_query_tokens q := by
  apply Int.ceil_nonneg
  rw [show (1.3 : ℚ) = 13 / 10 by norm_num]
  positivity

lemma _estimate_llm_input_tokens_ge (q : String) (chunks : List RetrievedChunk)
    (htc : ∀ c ∈ chunks, 0 ≤ c.token_count) :
    PROMPT_TEMPLATE_TOKENS ≤ _estimate_llm_input_tokens q chunks := by
  have hsum : 0 ≤ (chunks.map (fun c => c.token_count)).sum := by
    apply List.sum_nonneg
    intro x hx
    obtain ⟨c, hc, rfl⟩ := List.mem_map.mp hx
    exact htc c hc
  have h200 : (PROMPT_TEMPLATE_TOKENS : Int) = ⌈(PROMPT_TEMPLATE_TOKENS : ℚ)⌉ := by
    simp
  rw [h200]
  apply Int.ceil_le_ceil
  have h1 : (0 : ℚ) ≤ (((chunks.map (fun c => c.token_count)).sum : Int) : ℚ) := by
    exact_mod_cast hsum
  have h2 : (0 : ℚ) ≤ (q.length : ℚ) / 4 := by positivity
  linarith

lemma estimated_total_pos (cfg : AppSettings) (q : String)
    (chunks : List RetrievedChunk) (htc : ∀ c ∈ chunks, 0 ≤ c.token_count)
    (hmax : 0 ≤ cfg.LLM_MAX_OUTPUT_TOKENS) : 0 < estimated_total cfg q chunks := by
  have h1 := _estimate_query_tokens_nonneg q
  have h2 := _estimate_llm_input_tokens_ge q chunks htc
  have h3 : PROMPT_TEMPLATE_TOKENS = 200 := rfl
  unfold estimated_total
  omega

lemma int_ceil_div_40 (n : ℤ) : ⌈((n : ℚ) / 40)⌉ = (n + 39) / 40 := by
  have h : (((-n : ℤ) : ℚ) / ((40 : ℕ) : ℚ)) = -((n : ℚ) / 40) := by
    push_cast
    ring
  have h2 := Rat.floor_intCast_div_natCast (-n) 40
  rw [h, Int.floor_neg] at h2
  omega

lemma int_ceil_div_4 (n : ℤ) : ⌈((n : ℚ) / 4)⌉ = (n + 3) / 4 := by
  have h : (((-n : ℤ) : ℚ) / ((4 : ℕ) : ℚ)) = -((n : ℚ) / 4) := by
    push_cast
    ring
  have h2 := Rat.floor_intCast_div_natCast (-n) 4
  rw [h, Int.floor_neg] at h2
  omega

lemma _estimate_query_tokens_eq (q : String) :
    _estimate_query_tokens q = (13 * (q.length : Int) + 39) / 40 := by
  unfold _estimate_query_tokens
  have h : ((q.length : ℚ) / 4) * 1.3 = ((13 * (q.length : Int) : Int) : ℚ) / 40 := by
    rw [show (1.3 : ℚ) = 13 / 10 by norm_num]
    push_cast
    ring
  rw [h, int_ceil_div_40]

lemma _estimate_llm_input_tokens_eq (q : String) (chunks : List RetrievedChunk) :
    _estimate_llm_input_tokens q chunks =
      (chunks.map (fun c => c.token_count)).sum + PROMPT_TEMPLATE_TOKENS +
        ((q.length : Int) + 3) / 4 := by
  unfold _estimate_llm_input_tokens
  have h : (((chunks.map (fun c => c.token_count)).sum : Int) : ℚ) +
      (PROMPT_TEMPLATE_TOKENS : ℚ) + ((q.length : ℚ) / 4) =
      ((q.length : Int) : ℚ) / 4 +
        (((chunks.map (fun c => c.token_count)).sum + PROMPT_TEMPLATE_TOKENS : Int) : ℚ) := by
    push_cast
    ring
  rw [h, Int.ceil_add_int, int_ceil_div_4]
  ring

lemma estimated_total_eq (cfg : AppSettings) (q : String)
    (chunks : List RetrievedChunk) :
    estimated_total cfg q chunks =
      (13 * (q.length : Int) + 39) / 40 +
      ((chunks.map (fun c => c.token_count)).sum + 200 + ((q.length : Int) + 3) / 4) +
      cfg.LLM_MAX_OUTPUT_TOKENS := by
  unfold estimated_total
  rw [_estimate_query_tokens_eq, _estimate_llm_input_tokens_eq]
  have h : PROMPT_TEMPLATE_TOKENS = 200 := rfl
  omega

/-- C3: in both pipelines, whenever a step after a successful reservation of
`est` tokens throws (LLM `HTTPException`, any other exception, or — in the
streaming variant — a client disconnect), the run performs exactly one
release, of the full amount `est`, before surfacing the error, and the
ledger's reserved counter returns to its pre-reservation value; when the
reservation itself fails with `BudgetExceeded`, no ledger mutation happens at
all. -/
theorem pipeline_error_paths_release_once
    (cfg : AppSettings) (q : String) (d : PyDate) (te used reserved est : Int)
    (chunks : List RetrievedChunk) (deltas : List String) (llm : LLMOutcome)
    (sllm : StreamLLMOutcome)
    (hq1 : (pyStrip q) ≠ "") (hq2 : ((pyStrip q).length : Int) ≤ cfg.MAX_QUESTION_CHARS)
    (hu : 0 ≤ used) (hr : 0 ≤ reserved)
    (hl : used + reserved ≤ cfg.DAILY_TOKEN_LIMIT)
    (htc : ∀ c ∈ chunks, 0 ≤ c.token_count) (hmax : 0 ≤ cfg.LLM_MAX_OUTPUT_TOKENS)
    (httl : 0 ≤ cfg.RESERVATION_TTL_SECONDS) (hch : chunks ≠ [])
    (hest : est = estimated_total cfg (pyStrip q) chunks) :
    (est ≤ cfg.DAILY_TOKEN_LIMIT - (used + reserved) →
      run_query cfg q d ⟨some "ready", te, chunks⟩ .httpError (some ⟨used, reserved⟩) =
        ⟨some ⟨used, reserved⟩, [.reserveOp est, .releaseOp est], .httpError, true⟩ ∧
      run_query cfg q d ⟨some "ready", te, chunks⟩ .genericError (some ⟨used, reserved⟩) =
        ⟨some ⟨used, reserved⟩, [.reserveOp est, .releaseOp est], .internalError, true⟩ ∧
      run_query_stream cfg q d ⟨some "ready", te, chunks⟩ (.httpError deltas)
          (some ⟨used, reserved⟩) =
        ⟨some ⟨used, reserved⟩, [.reserveOp est, .releaseOp est],
         [StreamEvent.meta cfg.TOP_K] ++
           ((deltas.filter (fun t => t ≠ "")).map StreamEvent.delta) ++
           [.errorEvent "HTTP_ERROR"], true⟩ ∧
      run_query_stream cfg q d ⟨some "ready", te, chunks⟩ (.genericError deltas)
          (some ⟨used, reserved⟩) =
        ⟨some ⟨used, reserved⟩, [.reserveOp est, .releaseOp est],
         [StreamEvent.meta cfg.TOP_K] ++
           ((deltas.filter (fun t => t ≠ "")).map StreamEvent.delta) ++
           [.errorEvent "QUERY_FAILED"], true⟩ ∧
      run_query_stream cfg q d ⟨some "ready", te, chunks⟩ (.disconnected deltas)
          (some ⟨used, reserved⟩) =
        ⟨some ⟨used, reserved⟩, [.reserveOp est, .releaseOp est],
         [StreamEvent.meta cfg.TOP_K] ++
           ((deltas.filter (fun t => t ≠ "")).map StreamEvent.delta), true⟩) ∧
    (cfg.DAILY_TOKEN_LIMIT - (used + reserved) < est →
      run_query cfg q d ⟨some "ready", te, chunks⟩ llm (some ⟨used, reserved⟩) =
        ⟨some ⟨used, reserved⟩, [],
         .budgetExceeded ⟨used, reserved, cfg.DAILY_TOKEN_LIMIT,
            cfg.DAILY_TOKEN_LIMIT - (used + reserved)⟩, false⟩ ∧
      run_query_stream cfg q d ⟨some "ready", te, chunks⟩ sllm
          (some ⟨used, reserved⟩) =
        ⟨some ⟨used, reserved⟩, [], [.errorEvent "BUDGET_EXCEEDED"], false⟩) := by
  rcases chunks with _ | ⟨c, cs⟩
  · exact absurd rfl hch
  have hestpos : 0 < estimated_total cfg (pyStrip q) (c :: cs) :=
    estimated_total_pos cfg (pyStrip q) (c :: cs) htc hmax
  subst hest
  constructor
  · intro hfits
    have hresv := reserve_tokens_ok (le_of_lt hestpos) httl hfits
    have hrel : release_tokens (.intVal (estimated_total cfg (pyStrip q) (c :: cs)))
        (some ⟨used, reserved + estimated_total cfg (pyStrip q) (c :: cs)⟩) =
        (some ⟨used, reserved⟩, .ok reserved) := by
      have h2 := @release_tokens_ok (estimated_total cfg (pyStrip q) (c :: cs))
        used (reserved + estimated_total cfg (pyStrip q) (c :: cs))
        (le_of_lt hestpos) (by omega)
      simpa using h2
    refine ⟨?_, ?_, ?_, ?_, ?_⟩ <;>
      simp [run_query, run_query_stream, unary_handle, stream_guarded_release,
        hq1, not_lt.mpr hq2, hresv, hrel, hestpos]
  · intro hnofits
    have hresv := @reserve_tokens_exceeded cfg.DAILY_TOKEN_LIMIT
      cfg.RESERVATION_TTL_SECONDS (estimated_total cfg (pyStrip q) (c :: cs)) used reserved
      (le_of_lt hestpos) httl (by omega)
    constructor <;>
      simp [run_query, run_query_stream, hq1, not_lt.mpr hq2, hresv,
        mkBudgetExceeded, max_eq_right (by omega : (0:Int) ≤ cfg.DAILY_TOKEN_LIMIT - (used + reserved))]

/-- C3 witness: a concrete run in which the LLM call raises an
`HTTPException` releases the full reservation exactly once and restores the
ledger. -/
theorem pipeline_error_paths_release_once_witness :
    run_query ⟨100000, 600, 2000, 500, 5⟩ "What is this?" ⟨2026, 2, 15⟩
        ⟨some "ready", 7, [⟨1, 1, 1, 0, "text", "text", 10⟩]⟩ .httpError
        (some ⟨0, 0⟩) =
      ⟨some ⟨0, 0⟩,
       [.reserveOp (estimated_total ⟨100000, 600, 2000, 500, 5⟩ (pyStrip "What is this?")
          [⟨1, 1, 1, 0, "text", "text", 10⟩]),
        .releaseOp (estimated_total ⟨100000, 600, 2000, 500, 5⟩ (pyStrip "What is this?")
          [⟨1, 1, 1, 0, "text", "text", 10⟩])],
       .httpError, true⟩ :=
  ((pipeline_error_paths_release_once ⟨100000, 600, 2000, 500, 5⟩ "What is this?"
      ⟨2026, 2, 15⟩ 7 0 0
      (estimated_total ⟨100000, 600, 2000, 500, 5⟩ (pyStrip "What is this?")
        [⟨1, 1, 1, 0, "text", "text", 10⟩])
      [⟨1, 1, 1, 0, "text", "text", 10⟩] [] .httpError (.finished [] none)
      (by decide) (by decide) (by decide) (by decide) (by decide) (by decide)
      (by decide) (by decide) (by decide) rfl).1
    (by rw [estimated_total_eq]; decide)).1

lemma unary_settle_ok (cfg : AppSettings) (d : PyDate)
    (est actual used reserved : Int) (ans : String) (cits : List QueryCitation)
    (llmc : Bool) (h0 : 0 ≤ actual) (hestpos : 0 < est) (hr : 0 ≤ reserved) :
    unary_settle cfg d est actual ans cits llmc (some ⟨used, reserved + est⟩)
        [.reserveOp est] =
      ⟨some ⟨used + min actual est, reserved⟩,
       [.reserveOp est, .commitOp (min actual est)] ++
         (if min actual est < est then [.releaseOp (est - min actual est)] else []),
       .ok ans cits (get_budget_status cfg.DAILY_TOKEN_LIMIT d
         (some ⟨used + min actual est, reserved⟩)),
       llmc⟩ := by
  unfold unary_settle
  have hc := @commit_usage_ok (min actual est) used (reserved + est)
    (by omega) (by omega)
  simp only [hc]
  by_cases hlt : min actual est < est
  · have hrel := @release_tokens_ok (est - min actual est) (used + min actual est)
      (reserved + est - min actual est) (by omega) (by omega)
    have he1 : reserved + est - min actual est - (est - min actual est) = reserved := by
      omega
    simp only [he1] at hrel
    simp [hlt, hrel]
  · have hmin : min actual est = est := by omega
    have he2 : reserved + est - min actual est = reserved := by omega
    simp [hlt, hmin, he2]

lemma stream_settle_ok (cfg : AppSettings) (d : PyDate)
    (est actual used reserved : Int) (cits : List QueryCitation)
    (preEvents : List StreamEvent) (llmc : Bool)
    (h0 : 0 ≤ actual) (hestpos : 0 < est) (hr : 0 ≤ reserved) :
    stream_settle cfg d est actual cits preEvents llmc
        (some ⟨used, reserved + est⟩) [.reserveOp est] =
      ⟨some ⟨used + min actual est, reserved⟩,
       [.reserveOp est, .commitOp (min actual est)] ++
         (if min actual est < est then [.releaseOp (est - min actual est)] else []),
       preEvents ++ [.citationsEvent cits,
         .usageEvent (get_budget_status cfg.DAILY_TOKEN_LIMIT d
           (some ⟨used + min actual est, reserved⟩)),
         .done],
       llmc⟩ := by
  unfold stream_settle
  have hc := @commit_usage_ok (min actual est) used (reserved + est)
    (by omega) (by omega)
  simp only [hc]
  by_cases hlt : min actual est < est
  · have hrel := @release_tokens_ok (est - min actual est) (used + min actual est)
      (reserved + est - min actual est) (by omega) (by omega)
    have he1 : reserved + est - min actual est - (est - min actual est) = reserved := by
      omega
    simp only [he1] at hrel
    simp [hlt, hrel]
  · have hmin : min actual est = est := by omega
    have he2 : reserved + est - min actual est = reserved := by omega
    simp [hlt, hmin, he2]

/-- C4: when retrieval returns zero chunks, both pipelines make no LLM call,
answer with exactly the sentinel string, return an empty citations list, and
settle the ledger by committing `min tokens_embed est` and releasing the
remainder of the reservation. -/
theorem pipeline_no_chunk_branch
    (cfg : AppSettings) (q : String) (d : PyDate) (te used reserved est : Int)
    (llm : LLMOutcome) (sllm : StreamLLMOutcome)
    (hq1 : pyStrip q ≠ "")
    (hq2 : ((pyStrip q).length : Int) ≤ cfg.MAX_QUESTION_CHARS)
    (hu : 0 ≤ used) (hr : 0 ≤ reserved)
    (hl : used + reserved ≤ cfg.DAILY_TOKEN_LIMIT)
    (hmax : 0 ≤ cfg.LLM_MAX_OUTPUT_TOKENS)
    (httl : 0 ≤ cfg.RESERVATION_TTL_SECONDS) (hte : 0 ≤ te)
    (hest : est = estimated_total cfg (pyStrip q) [])
    (hfits : est ≤ cfg.DAILY_TOKEN_LIMIT - (used + reserved)) :
    run_query cfg q d ⟨some "ready", te, []⟩ llm (some ⟨used, reserved⟩) =
      ⟨some ⟨used + min te est, reserved⟩,
       [.reserveOp est, .commitOp (min te est)] ++
         (if min te est < est then [.releaseOp (est - min te est)] else []),
       .ok INSUFFICIENT_CONTEXT_MESSAGE []
         (get_budget_status cfg.DAILY_TOKEN_LIMIT d
           (some ⟨used + min te est, reserved⟩)),
       false⟩ ∧
    run_query_stream cfg q d ⟨some "ready", te, []⟩ sllm (some ⟨used, reserved⟩) =
      ⟨some ⟨used + min te est, reserved⟩,
       [.reserveOp est, .commitOp (min te est)] ++
         (if min te est < est then [.releaseOp (est - min te est)] else []),
       [StreamEvent.meta cfg.TOP_K, .delta INSUFFICIENT_CONTEXT_MESSAGE,
        .citationsEvent [],
        .usageEvent (get_budget_status cfg.DAILY_TOKEN_LIMIT d
          (some ⟨used + min te est, reserved⟩)),
        .done],
       false⟩ := by
  subst hest
  have hestpos : 0 < estimated_total cfg (pyStrip q) [] :=
    estimated_total_pos cfg (pyStrip q) [] (by intro c hc; cases hc) hmax
  have hresv := reserve_tokens_ok (le_of_lt hestpos) httl hfits
  have hset1 := unary_settle_ok cfg d (estimated_total cfg (pyStrip q) []) te
    used reserved INSUFFICIENT_CONTEXT_MESSAGE [] false hte hestpos hr
  have hset2 := stream_settle_ok cfg d (estimated_total cfg (pyStrip q) []) te
    used reserved []
    [StreamEvent.meta cfg.TOP_K, .delta INSUFFICIENT_CONTEXT_MESSAGE] false
    hte hestpos hr
  constructor
  · simp [run_query, hq1, not_lt.mpr hq2, hresv, hset1]
  · simp [run_query_stream, hq1, not_lt.mpr hq2, hresv, hset2]

/-- C4 witness: a concrete no-chunk run makes no LLM call. -/
theorem pipeline_no_chunk_branch_witness :
    (run_query ⟨100000, 600, 2000, 500, 5⟩ "What is this?" ⟨2026, 2, 15⟩
        ⟨some "ready", 7, []⟩ .genericError (some ⟨0, 0⟩)).llmCalled = false :=
  congrArg RunResult.llmCalled
    (pipeline_no_chunk_branch ⟨100000, 600, 2000, 500, 5⟩ "What is this?"
      ⟨2026, 2, 15⟩ 7 0 0
      (estimated_total ⟨100000, 600, 2000, 500, 5⟩ (pyStrip "What is this?") [])
      .genericError (.finished [] none)
      (by decide) (by decide) (by decide) (by decide) (by decide) (by decide)
      (by decide) (by decide) rfl (by rw [estimated_total_eq]; decide)).1

lemma stream_settle_state_trace (cfg : AppSettings) (d : PyDate)
    (est actual used reserved : Int) (cits : List QueryCitation)
    (preEvents : List StreamEvent) (llmc : Bool)
    (h0 : 0 ≤ actual) (hestpos : 0 < est) (hr : 0 ≤ reserved) :
    (stream_settle cfg d est actual cits preEvents llmc
        (some ⟨used, reserved + est⟩) [.reserveOp est]).state =
      some ⟨used + min actual est, reserved⟩ ∧
    (stream_settle cfg d est actual cits preEvents llmc
        (some ⟨used, reserved + est⟩) [.reserveOp est]).trace =
      [.reserveOp est, .commitOp (min actual est)] ++
        (if min actual est < est then [.releaseOp (est - min actual est)] else []) := by
  rw [stream_settle_ok cfg d est actual used reserved cits preEvents llmc
    h0 hestpos hr]
  exact ⟨rfl, rfl⟩

/-- C5: on every successful query of either pipeline, with
`actual = tokens_embed + llm.total`, the settlement commits
`committed = min actual est` and releases `est - committed`, so the committed
and released amounts of the run sum to exactly the reserved `est`, and the
reserved counter returns to its pre-query value. -/
theorem pipeline_settlement_conservation
    (cfg : AppSettings) (q : String) (d : PyDate) (te used reserved est cm : Int)
    (chunks : List RetrievedChunk) (r : LLMResult) (deltas : List String)
    (hq1 : pyStrip q ≠ "")
    (hq2 : ((pyStrip q).length : Int) ≤ cfg.MAX_QUESTION_CHARS)
    (hu : 0 ≤ used) (hr : 0 ≤ reserved)
    (hl : used + reserved ≤ cfg.DAILY_TOKEN_LIMIT)
    (htc : ∀ c ∈ chunks, 0 ≤ c.token_count)
    (hmax : 0 ≤ cfg.LLM_MAX_OUTPUT_TOKENS)
    (httl : 0 ≤ cfg.RESERVATION_TTL_SECONDS)
    (hte : 0 ≤ te) (hrt : 0 ≤ r.total_tokens) (hch : chunks ≠ [])
    (hest : est = estimated_total cfg (pyStrip q) chunks)
    (hfits : est ≤ cfg.DAILY_TOKEN_LIMIT - (used + reserved))
    (hcm : cm = min (te + r.total_tokens) est) :
    run_query cfg q d ⟨some "ready", te, chunks⟩ (.ok r) (some ⟨used, reserved⟩) =
      ⟨some ⟨used + cm, reserved⟩,
       [.reserveOp est, .commitOp cm] ++
         (if cm < est then [.releaseOp (est - cm)] else []),
       .ok (if r.answer = "" then INSUFFICIENT_CONTEXT_MESSAGE else r.answer)
         (chunks.map citation_of)
         (get_budget_status cfg.DAILY_TOKEN_LIMIT d (some ⟨used + cm, reserved⟩)),
       true⟩ ∧
    (run_query_stream cfg q d ⟨some "ready", te, chunks⟩
        (.finished deltas (some r)) (some ⟨used, reserved⟩)).state =
      some ⟨used + cm, reserved⟩ ∧
    (run_query_stream cfg q d ⟨some "ready", te, chunks⟩
        (.finished deltas (some r)) (some ⟨used, reserved⟩)).trace =
      [.reserveOp est, .commitOp cm] ++
        (if cm < est then [.releaseOp (est - cm)] else []) ∧
    (commitAmounts (run_query cfg q d ⟨some "ready", te, chunks⟩ (.ok r)
        (some ⟨used, reserved⟩)).trace).sum +
      (releaseAmounts (run_query cfg q d ⟨some "ready", te, chunks⟩ (.ok r)
        (some ⟨used, reserved⟩)).trace).sum = est ∧
    (commitAmounts (run_query_stream cfg q d ⟨some "ready", te, chunks⟩
        (.finished deltas (some r)) (some ⟨used, reserved⟩)).trace).sum +
      (releaseAmounts (run_query_stream cfg q d ⟨some "ready", te, chunks⟩
        (.finished deltas (some r)) (some ⟨used, reserved⟩)).trace).sum = est := by
  rcases chunks with _ | ⟨c, cs⟩
  · exact absurd rfl hch
  subst hest
  subst hcm
  have hestpos : 0 < estimated_total cfg (pyStrip q) (c :: cs) :=
    estimated_total_pos cfg (pyStrip q) (c :: cs) htc hmax
  have hresv := reserve_tokens_ok (le_of_lt hestpos) httl hfits
  have h0 : 0 ≤ te + r.total_tokens := by omega
  have hset1 := unary_settle_ok cfg d (estimated_total cfg (pyStrip q) (c :: cs))
    (te + r.total_tokens) used reserved
    (if r.answer = "" then INSUFFICIENT_CONTEXT_MESSAGE else r.answer)
    ((c :: cs).map citation_of) true h0 hestpos hr
  have h1 : run_query cfg q d ⟨some "ready", te, c :: cs⟩ (.ok r)
      (some ⟨used, reserved⟩) =
      ⟨some ⟨used + min (te + r.total_tokens)
          (estimated_total cfg (pyStrip q) (c :: cs)), reserved⟩,
       [.reserveOp (estimated_total cfg (pyStrip q) (c :: cs)),
        .commitOp (min (te + r.total_tokens)
          (estimated_total cfg (pyStrip q) (c :: cs)))] ++
         (if min (te + r.total_tokens) (estimated_total cfg (pyStrip q) (c :: cs)) <
             estimated_total cfg (pyStrip q) (c :: cs) then
           [.releaseOp (estimated_total cfg (pyStrip q) (c :: cs) -
             min (te + r.total_tokens) (estimated_total cfg (pyStrip q) (c :: cs)))]
          else []),
       .ok (if r.answer = "" then INSUFFICIENT_CONTEXT_MESSAGE else r.answer)
         ((c :: cs).map citation_of)
         (get_budget_status cfg.DAILY_TOKEN_LIMIT d
           (some ⟨used + min (te + r.total_tokens)
             (estimated_total cfg (pyStrip q) (c :: cs)), reserved⟩)),
       true⟩ := by
    simp only [List.map_cons] at hset1
    simp [run_query, hq1, not_lt.mpr hq2, hresv, hset1]
  have h2 : (run_query_stream cfg q d ⟨some "ready", te, c :: cs⟩
      (.finished deltas (some r)) (some ⟨used, reserved⟩)).state =
      some ⟨used + min (te + r.total_tokens)
        (estimated_total cfg (pyStrip q) (c :: cs)), reserved⟩ := by
    simp only [run_query_stream]
    simp [hq1, not_lt.mpr hq2, hresv]
    rw [stream_settle_ok cfg d _ _ used reserved _ _ true h0 hestpos hr]
  have h3 : (run_query_stream cfg q d ⟨some "ready", te, c :: cs⟩
      (.finished deltas (some r)) (some ⟨used, reserved⟩)).trace =
      [.reserveOp (estimated_total cfg (pyStrip q) (c :: cs)),
       .commitOp (min (te + r.total_tokens)
         (estimated_total cfg (pyStrip q) (c :: cs)))] ++
        (if min (te + r.total_tokens) (estimated_total cfg (pyStrip q) (c :: cs)) <
            estimated_total cfg (pyStrip q) (c :: cs) then
          [.releaseOp (estimated_total cfg (pyStrip q) (c :: cs) -
            min (te + r.total_tokens) (estimated_total cfg (pyStrip q) (c :: cs)))]
         else []) := by
    simp only [run_query_stream]
    simp [hq1, not_lt.mpr hq2, hresv]
    rw [stream_settle_ok cfg d _ _ used reserved _ _ true h0 hestpos hr]
    simp
  refine ⟨h1, h2, h3, ?_, ?_⟩
  · rw [h1]
    by_cases hlt : min (te + r.total_tokens)
        (estimated_total cfg (pyStrip q) (c :: cs)) <
        estimated_total cfg (pyStrip q) (c :: cs)
    · simp [hlt, commitAmounts, releaseAmounts] <;> omega
    · simp [hlt, commitAmounts, releaseAmounts] <;> omega
  · rw [h3]
    by_cases hlt : min (te + r.total_tokens)
        (estimated_total cfg (pyStrip q) (c :: cs)) <
        estimated_total cfg (pyStrip q) (c :: cs)
    · simp [hlt, commitAmounts, releaseAmounts] <;> omega
    · simp [hlt, commitAmounts, releaseAmounts] <;> omega

/-- C5 witness: on a concrete successful query the committed and released
amounts sum to the reserved estimate. -/
theorem pipeline_settlement_conservation_witness :
    (commitAmounts (run_query ⟨100000, 600, 2000, 500, 5⟩ "What is this?"
        ⟨2026, 2, 15⟩ ⟨some "ready", 7, [⟨1, 1, 1, 0, "text", "text", 10⟩]⟩
        (.ok ⟨"Answer.", 50, 20, 70⟩) (some ⟨0, 0⟩)).trace).sum +
      (releaseAmounts (run_query ⟨100000, 600, 2000, 500, 5⟩ "What is this?"
        ⟨2026, 2, 15⟩ ⟨some "ready", 7, [⟨1, 1, 1, 0, "text", "text", 10⟩]⟩
        (.ok ⟨"Answer.", 50, 20, 70⟩) (some ⟨0, 0⟩)).trace).sum =
      estimated_total ⟨100000, 600, 2000, 500, 5⟩ (pyStrip "What is this?")
        [⟨1, 1, 1, 0, "text", "text", 10⟩] :=
  (pipeline_settlement_conservation ⟨100000, 600, 2000, 500, 5⟩ "What is this?"
      ⟨2026, 2, 15⟩ 7 0 0
      (estimated_total ⟨100000, 600, 2000, 500, 5⟩ (pyStrip "What is this?")
        [⟨1, 1, 1, 0, "text", "text", 10⟩])
      (min (7 + 70) (estimated_total ⟨100000, 600, 2000, 500, 5⟩
        (pyStrip "What is this?") [⟨1, 1, 1, 0, "text", "text", 10⟩]))
      [⟨1, 1, 1, 0, "text", "text", 10⟩] ⟨"Answer.", 50, 20, 70⟩ []
      (by decide) (by decide) (by decide) (by decide) (by decide) (by decide)
      (by decide) (by decide) (by decide) (by decide) (by decide)
      rfl (by rw [estimated_total_eq]; decide) rfl).2.2.2.1

lemma unary_handle_trace_head (ra : Int) (out : QueryOutcome) (llmc : Bool)
    (s : LedgerState) (op : LedgerOp) (tr0 : List LedgerOp) :
    (unary_handle ra out llmc s (op :: tr0)).trace.head? = some op := by
  unfold unary_handle
  rcases h : release_tokens (.intVal ra) s with ⟨s2, r2⟩
  by_cases hra : ra > 0 <;> rcases r2 with e | v <;> simp [hra, h]

lemma unary_settle_trace_head (cfg : AppSettings) (d : PyDate)
    (est actual : Int) (ans : String) (cits : List QueryCitation) (llmc : Bool)
    (s : LedgerState) (op : LedgerOp) (tr0 : List LedgerOp) :
    (unary_settle cfg d est actual ans cits llmc s (op :: tr0)).trace.head? =
      some op := by
  unfold unary_settle
  rcases hc : commit_usage (.intVal (min actual est)) s with ⟨s2, r2⟩
  rcases r2 with e | v
  · simp [hc, unary_handle_trace_head]
  · simp only [hc]
    by_cases hlt : est > min actual est
    · rcases hr2 : release_tokens (.intVal (est - min actual est)) s2 with ⟨s3, r3⟩
      rcases r3 with e3 | v3 <;> simp [hlt, hr2, unary_handle_trace_head]
    · simp [hlt]

lemma stream_guarded_release_trace_head (ra : Int) (s : LedgerState)
    (op : LedgerOp) (tr0 : List LedgerOp) :
    (stream_guarded_release ra s (op :: tr0)).2.head? = some op := by
  unfold stream_guarded_release
  rcases h : release_tokens (.intVal ra) s with ⟨s2, r2⟩
  by_cases hra : ra > 0 <;> rcases r2 with e | v <;> simp [hra, h]

lemma stream_settle_trace_head (cfg : AppSettings) (d : PyDate)
    (est actual : Int) (cits : List QueryCitation)
    (preEvents : List StreamEvent) (llmc : Bool)
    (s : LedgerState) (op : LedgerOp) (tr0 : List LedgerOp) :
    (stream_settle cfg d est actual cits preEvents llmc s
      (op :: tr0)).trace.head? = some op := by
  unfold stream_settle
  rcases hc : commit_usage (.intVal (min actual est)) s with ⟨s2, r2⟩
  rcases r2 with e | v
  · simp [hc, stream_guarded_release_trace_head]
  · simp only [hc]
    by_cases hlt : est > min actual est
    · rcases hr2 : release_tokens (.intVal (est - min actual est)) s2 with ⟨s3, r3⟩
      rcases r3 with e3 | v3 <;> simp [hlt, hr2, stream_guarded_release_trace_head]
    · simp [hlt]

/-- C6: whenever a pipeline run reaches the reservation and it succeeds, the
amount reserved (the first ledger operation of the run) is exactly
`est = ⌈|q|/4 · 1.3⌉ + ⌈Σ token_count + 200 + |q|/4⌉ + LLM_MAX_OUTPUT_TOKENS`,
here in its closed integer form: `⌈|q|/4 · 1.3⌉ = (13·|q| + 39) / 40` and
`⌈Σ + 200 + |q|/4⌉ = Σ + 200 + (|q| + 3) / 4`, where `|q|` is the character
length of the stripped question. -/
theorem reserve_amount_formula
    (cfg : AppSettings) (q : String) (d : PyDate) (te used reserved : Int)
    (chunks : List RetrievedChunk) (llm : LLMOutcome) (sllm : StreamLLMOutcome)
    (hq1 : pyStrip q ≠ "")
    (hq2 : ((pyStrip q).length : Int) ≤ cfg.MAX_QUESTION_CHARS)
    (htc : ∀ c ∈ chunks, 0 ≤ c.token_count)
    (hmax : 0 ≤ cfg.LLM_MAX_OUTPUT_TOKENS)
    (httl : 0 ≤ cfg.RESERVATION_TTL_SECONDS)
    (hfits : estimated_total cfg (pyStrip q) chunks ≤
      cfg.DAILY_TOKEN_LIMIT - (used + reserved)) :
    (run_query cfg q d ⟨some "ready", te, chunks⟩ llm
        (some ⟨used, reserved⟩)).trace.head? =
      some (.reserveOp (estimated_total cfg (pyStrip q) chunks)) ∧
    (run_query_stream cfg q d ⟨some "ready", te, chunks⟩ sllm
        (some ⟨used, reserved⟩)).trace.head? =
      some (.reserveOp (estimated_total cfg (pyStrip q) chunks)) ∧
    estimated_total cfg (pyStrip q) chunks =
      (13 * ((pyStrip q).length : Int) + 39) / 40 +
      ((chunks.map (fun c => c.token_count)).sum + 200 +
        (((pyStrip q).length : Int) + 3) / 4) +
      cfg.LLM_MAX_OUTPUT_TOKENS := by
  have hestpos : 0 < estimated_total cfg (pyStrip q) chunks :=
    estimated_total_pos cfg (pyStrip q) chunks htc hmax
  have hresv := reserve_tokens_ok (le_of_lt hestpos) httl hfits
  refine ⟨?_, ?_, estimated_total_eq cfg (pyStrip q) chunks⟩
  · simp only [run_query]
    simp only [hq1, not_lt.mpr hq2, hresv]
    by_cases hemp : chunks.isEmpty <;>
      cases llm <;>
        simp [hemp, hq1, not_lt.mpr hq2, hresv, unary_settle_trace_head,
          unary_handle_trace_head]
  · simp only [run_query_stream]
    by_cases hemp : chunks.isEmpty <;>
      cases sllm <;>
        simp [hemp, hq1, not_lt.mpr hq2, hresv, stream_settle_trace_head,
          stream_guarded_release_trace_head]

/-- C6 witness: the first ledger operation of a concrete run is the
reservation of the estimate. -/
theorem reserve_amount_formula_witness :
    (run_query ⟨100000, 600, 2000, 500, 5⟩ "What is this?" ⟨2026, 2, 15⟩
        ⟨some "ready", 7, [⟨1, 1, 1, 0, "text", "text", 10⟩]⟩ .genericError
        (some ⟨0, 0⟩)).trace.head? =
      some (.reserveOp (estimated_total ⟨100000, 600, 2000, 500, 5⟩
        (pyStrip "What is this?") [⟨1, 1, 1, 0, "text", "text", 10⟩])) :=
  (reserve_amount_formula ⟨100000, 600, 2000, 500, 5⟩ "What is this?"
      ⟨2026, 2, 15⟩ 7 0 0 [⟨1, 1, 1, 0, "text", "text", 10⟩] .genericError
      (.finished [] none)
      (by decide) (by decide) (by decide) (by decide) (by decide)
      (by rw [estimated_total_eq]; decide)).1

/-- A row of the `chunks` table as read by `retrieve_top_k_chunks`. -/
structure ChunkTableRow where
  id : Nat
  workspace_id : Nat
  document_id : Nat
  page_start : Int
  chunk_index : Nat
  content : String
  token_count : Int
deriving Repr, DecidableEq

/-- A row of the `chunk_embeddings` table. -/
structure ChunkEmbeddingRow where
  chunk_id : Nat
  workspace_id : Nat
  document_id : Nat
  embedding : List ℚ
deriving Repr, DecidableEq

/-- The FROM/JOIN/WHERE clause of the SQL in `retrieve_top_k_chunks`
(`core/retrieval.py` lines 37-59): `chunk_embeddings ce JOIN chunks c ON
c.id = ce.chunk_id` with equality predicates on `workspace_id` and
`document_id` for both tables. -/
def joinCandidates (ces : List ChunkEmbeddingRow) (cs : List ChunkTableRow)
    (workspace_id document_id : Nat) : List (ChunkEmbeddingRow × ChunkTableRow) :=
  ces.bind fun ce =>
    cs.filterMap fun c =>
      if c.id = ce.chunk_id ∧ ce.workspace_id = workspace_id ∧
          ce.document_id = document_id ∧ c.workspace_id = workspace_id ∧
          c.document_id = document_id then
        some (ce, c)
      else none

/-- `ORDER BY ce.embedding <=> :query LIMIT :top_k`: the database returns a
prefix of length at most `k` of some arrangement of the candidate rows that
is ascending in the distance score.  The relative order of rows with equal
score is not constrained.  `score` abstracts the `<=>` cosine-distance
operator applied to the fixed query vector. -/
def IsTopKResult (ces : List ChunkEmbeddingRow) (cs : List ChunkTableRow)
    (workspace_id document_id : Nat) (score : List ℚ → ℚ) (k : Nat)
    (result : List (ChunkEmbeddingRow × ChunkTableRow)) : Prop :=
  ∃ ordered : List (ChunkEmbeddingRow × ChunkTableRow),
    ordered.Perm (joinCandidates ces cs workspace_id document_id) ∧
    ordered.Pairwise (fun p1 p2 => score p1.1.embedding ≤ score p2.1.embedding) ∧
    result = ordered.take k

/-- The tie-break ordering asserted by the spec: rows with equal score appear
in ascending `chunk_index` order. -/
def TieBreakByChunkIndex (score : List ℚ → ℚ)
    (result : List (ChunkEmbeddingRow × ChunkTableRow)) : Prop :=
  result.Pairwise (fun p1 p2 =>
    score p1.1.embedding = score p2.1.embedding →
      p1.2.chunk_index ≤ p2.2.chunk_index)

lemma mem_joinCandidates {ces : List ChunkEmbeddingRow} {cs : List ChunkTableRow}
    {w dcid : Nat} {p : ChunkEmbeddingRow × ChunkTableRow} :
    p ∈ joinCandidates ces cs w dcid ↔
      p.1 ∈ ces ∧ p.2 ∈ cs ∧ p.2.id = p.1.chunk_id ∧ p.1.workspace_id = w ∧
      p.1.document_id = dcid ∧ p.2.workspace_id = w ∧ p.2.document_id = dcid := by
  rcases p with ⟨ce, c⟩
  simp only [joinCandidates, List.mem_bind, List.mem_filterMap]
  constructor
  · rintro ⟨a, ha, b, hb, h⟩
    split at h
    · rcases h with ⟨rfl, rfl⟩
      rename_i hcond
      exact ⟨ha, hb, hcond.1, hcond.2.1, hcond.2.2.1, hcond.2.2.2.1, hcond.2.2.2.2⟩
    · cases h
  · rintro ⟨h1, h2, h3, h4, h5, h6, h7⟩
    exact ⟨ce, h1, c, h2, by simp [h3, h4, h5, h6, h7]⟩

/-- C8 (amended): every possible result of the top-k SQL has at most `k`
rows, is ordered ascending by score, and contains only rows of the requested
workspace and document (joined on `c.id = ce.chunk_id`).  The relative order
of equal-score rows is not specified by the query. -/
theorem retrieval_topk_ordered (ces : List ChunkEmbeddingRow)
    (cs : List ChunkTableRow) (w dcid : Nat) (score : List ℚ → ℚ) (k : Nat)
    (result : List (ChunkEmbeddingRow × ChunkTableRow))
    (h : IsTopKResult ces cs w dcid score k result) :
    result.length ≤ k ∧
    result.Pairwise (fun p1 p2 => score p1.1.embedding ≤ score p2.1.embedding) ∧
    ∀ p ∈ result, p.1 ∈ ces ∧ p.2 ∈ cs ∧ p.2.id = p.1.chunk_id ∧
      p.1.workspace_id = w ∧ p.1.document_id = dcid ∧
      p.2.workspace_id = w ∧ p.2.document_id = dcid := by
  obtain ⟨ordered, hperm, hsorted, rfl⟩ := h
  refine ⟨?_, ?_, ?_⟩
  · simpa using List.length_take_le k ordered
  · exact List.Pairwise.sublist (List.take_sublist k ordered) hsorted
  · intro p hp
    have hmem : p ∈ ordered := List.mem_of_mem_take hp
    have : p ∈ joinCandidates ces cs w dcid := hperm.mem_iff.mp hmem
    exact mem_joinCandidates.mp this

/-- C8 witness: a concrete valid result of the top-k query. -/
theorem retrieval_topk_ordered_witness :
    ([(⟨1, 1, 1, [0]⟩, ⟨1, 1, 1, 1, 0, "a", 1⟩)] :
      List (ChunkEmbeddingRow × ChunkTableRow)).length ≤ 2 :=
  (retrieval_topk_ordered [⟨1, 1, 1, [0]⟩] [⟨1, 1, 1, 1, 0, "a", 1⟩] 1 1
    (fun _ => 0) 2 [(⟨1, 1, 1, [0]⟩, ⟨1, 1, 1, 1, 0, "a", 1⟩)]
    ⟨[(⟨1, 1, 1, [0]⟩, ⟨1, 1, 1, 1, 0, "a", 1⟩)], by decide, by decide, by decide⟩).1

/-- C8 counterexample: the SQL has no secondary sort key, so a valid result
can return two equal-score rows with descending `chunk_index`; the claimed
stable tie-break does not hold. -/
theorem retrieval_tie_break_counterexample :
    IsTopKResult [⟨1, 1, 1, [0]⟩, ⟨2, 1, 1, [0]⟩]
      [⟨1, 1, 1, 1, 0, "a", 1⟩, ⟨2, 1, 1, 1, 1, "b", 1⟩] 1 1 (fun _ => 0) 2
      [(⟨2, 1, 1, [0]⟩, ⟨2, 1, 1, 1, 1, "b", 1⟩),
       (⟨1, 1, 1, [0]⟩, ⟨1, 1, 1, 1, 0, "a", 1⟩)] ∧
    ¬ TieBreakByChunkIndex (fun _ => 0)
      [(⟨2, 1, 1, [0]⟩, ⟨2, 1, 1, 1, 1, "b", 1⟩),
       (⟨1, 1, 1, [0]⟩, ⟨1, 1, 1, 1, 0, "a", 1⟩)] := by
  constructor
  · exact ⟨[(⟨2, 1, 1, [0]⟩, ⟨2, 1, 1, 1, 1, "b", 1⟩),
      (⟨1, 1, 1, [0]⟩, ⟨1, 1, 1, 1, 0, "a", 1⟩)], by decide, by decide, by decide⟩
  · intro hcontra
    have h2 := List.rel_of_pairwise_cons hcontra (List.mem_singleton.mpr rfl) rfl
    exact absurd h2 (by decide)

/-- An abstract `tiktoken` encoding: `encode`/`decode` round out the external
tokenizer used by `chunk_text`. -/
structure Tokenizer where
  encode : String → List Nat
  decode : List Nat → String

/-- `CHUNK_SIZE_TOKENS` (`worker/jobs/ingest_index.py` line 23). -/
def CHUNK_SIZE_TOKENS : Nat := 500

/-- `OVERLAP_TOKENS` (`worker/jobs/ingest_index.py` line 24). -/
def OVERLAP_TOKENS : Nat := 100

/-- The sliding-window loop shared by both branches of `chunk_text`
(`ingest_index.py` lines 94-105 and 111-122): starting at `start`, take the
slice `xs[start : min (length, start+size)]`, turn it into a stripped piece
with `f`, emit it when non-empty, stop when the window reached the end, and
otherwise continue from `end - ov`.  The loop terminates because `ov < size`
makes every step advance. -/
def chunkLoop (xs : List α) (size ov : Nat) (f : List α → String)
    (hov : ov < size) (start : Nat) : List String :=
  if hlt : start < xs.length then
    let e := min xs.length (start + size)
    let piece := f ((xs.drop start).take size)
    let rest :=
      if h2 : xs.length ≤ e then [] else chunkLoop xs size ov f hov (e - ov)
    if piece = "" then rest else piece :: rest
  else []
termination_by xs.length - start
decreasing_by
  simp only [not_le] at h2
  omega

/-- `chunk_text` (`ingest_index.py` lines 84-122): strip the page text;
return no chunks when empty; with a tokenizer, window over the token ids
(decoding and stripping each window); without one, window over characters at
4 chars per token. -/
def chunk_text (enc? : Option Tokenizer) (text_value : String)
    (chunk_size_tokens overlap_tokens : Nat)
    (hov : overlap_tokens < chunk_size_tokens) : List String :=
  let normalized := pyStrip text_value
  if normalized = "" then []
  else
    match enc? with
    | none =>
      chunkLoop normalized.toList (max 1 (chunk_size_tokens * 4))
        (max 0 (overlap_tokens * 4)) (fun cs => pyStrip (String.mk cs))
        (by omega) 0
    | some encoding =>
      let token_ids := encoding.encode normalized
      if token_ids = [] then []
      else
        chunkLoop token_ids chunk_size_tokens overlap_tokens
          (fun w => pyStrip (encoding.decode w)) hov 0

/-- Number of windows the loop emits over `total` elements with window `size`
and advance `step`. -/
def numWindows (total size step : Nat) : Nat :=
  if total = 0 then 0 else (total - size + step - 1) / step + 1

/-- The windows as the spec words them: the i-th window is the `size`-element
slice starting at offset `step * i`. -/
def specWindows (xs : List α) (size step : Nat) : List (List α) :=
  (List.range (numWindows xs.length size step)).map
    (fun i => (xs.drop (step * i)).take size)

/-- Chunking as the spec words it: successive windows of `size` advancing by
`step`, in order, each mapped through the strip function `f`, empty results
dropped. -/
def specChunks (xs : List α) (size step : Nat) (f : List α → String) :
    List String :=
  ((specWindows xs size step).map f).filter (fun s => s ≠ "")

lemma numWindows_succ (R size step : Nat) (hstep : 0 < step) (hss : step ≤ size)
    (hR : size < R) :
    numWindows R size step = numWindows (R - step) size step + 1 := by
  have hR0 : ¬ R = 0 := by omega
  have hR1 : ¬ R - step = 0 := by omega
  unfold numWindows
  rw [if_neg hR0, if_neg hR1]
  have h1 : R - size + step - 1 = (R - size - 1) + step := by omega
  rw [h1, Nat.add_div_right _ hstep]
  by_cases hb : R - step - size = 0
  · have h2 : R - step - size + step - 1 = step - 1 := by omega
    rw [h2]
    have h3 : (step - 1) / step = 0 := Nat.div_eq_of_lt (by omega)
    have h4 : (R - size - 1) / step = 0 := Nat.div_eq_of_lt (by omega)
    rw [h3, h4]
  · have h2 : R - step - size + step - 1 = (R - step - size - 1) + step := by omega
    rw [h2, Nat.add_div_right _ hstep]
    have h3 : R - size - 1 = (R - step - size - 1) + step := by omega
    rw [h3, Nat.add_div_right _ hstep]

lemma chunkLoop_eq_spec (xs : List α) (size ov : Nat) (f : List α → String)
    (hov : ov < size) (start : Nat) :
    chunkLoop xs size ov f hov start =
      ((List.range (numWindows (xs.length - start) size (size - ov))).map
        (fun i => f ((xs.drop (start + (size - ov) * i)).take size))).filter
        (fun s => s ≠ "") := by
  suffices H : ∀ n, ∀ start, xs.length - start ≤ n →
      chunkLoop xs size ov f hov start =
        ((List.range (numWindows (xs.length - start) size (size - ov))).map
          (fun i => f ((xs.drop (start + (size - ov) * i)).take size))).filter
          (fun s => s ≠ "") by
    exact H xs.length start (by omega)
  intro n
  induction n with
  | zero =>
    intro start h0
    have hge : ¬ start < xs.length := by omega
    have hz : xs.length - start = 0 := by omega
    unfold chunkLoop
    rw [dif_neg hge, hz]
    simp [numWindows]
  | succ n IH =>
    intro start hle
    by_cases hlt : start < xs.length
    · unfold chunkLoop
      rw [dif_pos hlt]
      by_cases hbig : xs.length ≤ start + size
      · have hmin : min xs.length (start + size) = xs.length := min_eq_left hbig
        have hR0 : xs.length - start ≠ 0 := by omega
        have hnw : numWindows (xs.length - start) size (size - ov) = 1 := by
          unfold numWindows
          rw [if_neg hR0]
          have he : xs.length - start - size + (size - ov) - 1 = size - ov - 1 := by
            omega
          rw [he, Nat.div_eq_of_lt (by omega)]
        rw [hnw]
        have hr1 : List.range 1 = [0] := rfl
        simp only [hmin, le_refl, dite_eq_ite, if_true, hr1,
          List.map_cons, List.map_nil, List.filter_cons, List.filter_nil,
          Nat.mul_zero, Nat.add_zero]
        by_cases hp : f ((xs.drop start).take size) = "" <;> simp [hp]
      · have hlt2 : start + size < xs.length := by omega
        have hmin : min xs.length (start + size) = start + size :=
          min_eq_right (by omega)
        have hstep : 0 < size - ov := by omega
        have hnw := numWindows_succ (xs.length - start) size (size - ov) hstep
          (by omega) (by omega)
        have hidx : xs.length - start - (size - ov) =
            xs.length - (start + (size - ov)) := by omega
        rw [hidx] at hnw
        have hIH := IH (start + (size - ov)) (by omega)
        have hrec : start + size - ov = start + (size - ov) := by omega
        rw [hnw, List.range_succ_eq_map]
        simp only [hmin, hrec]
        rw [dif_neg (by omega : ¬ xs.length ≤ start + size)]
        rw [hIH]
        have hshift : ∀ i : Nat,
            start + (size - ov) * (i + 1) = (start + (size - ov)) + (size - ov) * i := by
          intro i
          ring
        have hfun : ((fun i => f (List.take size (List.drop (start + (size - ov) * i) xs))) ∘
            Nat.succ) =
            (fun i => f (List.take size
              (List.drop ((start + (size - ov)) + (size - ov) * i) xs))) := by
          funext i
          simp only [Function.comp_apply, Nat.succ_eq_add_one, hshift]
        simp only [List.map_cons, List.map_map, List.filter_cons, hfun,
          Nat.mul_zero, Nat.add_zero]
        by_cases hp : f ((xs.drop start).take size) = "" <;> simp [hp]
    · have hz : xs.length - start = 0 := by omega
      unfold chunkLoop
      rw [dif_neg hlt, hz]
      simp [numWindows]

/-- Rounding of a rational at a fixed binary exponent `e`: the significand
`q / 2^e` is taken to the nearest integer, ties to even. -/
def roundAt (q : ℚ) (e : ℤ) : ℚ :=
  let s := q / 2 ^ e
  let m0 := ⌊s⌋
  let r := s - (m0 : ℚ)
  let m := if r < 1 / 2 then m0
    else if 1 / 2 < r then m0 + 1
    else if m0 % 2 = 0 then m0 else m0 + 1
  (m : ℚ) * 2 ^ e

/-- Round a positive rational to a 53-bit significand (the binary64
precision): the exponent is chosen so that the significand lies in
`[2^52, 2^53)`. -/
def roundPos (q : ℚ) : ℚ := roundAt q (Int.log 2 q - 52)

/-- `fl64 q`: the IEEE-754 binary64 value nearest to `q`, round to nearest
with ties to even.  The exponent is unbounded: the overflow and subnormal
ranges of binary64 are never reached by the inputs arising in this file, so
finite-precision rounding is the only float effect modelled. -/
def fl64 (q : ℚ) : ℚ :=
  if q = 0 then 0 else if q < 0 then -roundPos (-q) else roundPos q

/-- `_estimate_embedding_tokens` (`ingest_index.py` lines 49-50):
`max(1, int(math.ceil((len(text) / 4.0) * 1.1)))`.  Every float operation of
the source rounds to binary64: the conversion of `len` to float, the
division by `4.0`, the literal `1.1` itself, and the product. -/
def _estimate_embedding_tokens (text_value : String) : Int :=
  max 1 ⌈fl64 (fl64 (fl64 (text_value.length : ℚ) / 4) * fl64 (11 / 10))⌉

lemma int_log2_eq (q : ℚ) (L : ℤ) (h0 : 0 < q) (h1 : (2 : ℚ) ^ L ≤ q)
    (h2 : q < (2 : ℚ) ^ (L + 1)) : Int.log 2 q = L := by
  have hb : (1 : ℕ) < 2 := by norm_num
  have ha := Int.zpow_log_le_self hb h0
  have hc := Int.lt_zpow_succ_log_self hb q
  have hcast : ((2 : ℕ) : ℚ) = (2 : ℚ) := by norm_num
  rw [hcast] at ha hc
  have h3 : Int.log 2 q < L + 1 :=
    (zpow_lt_zpow_iff_right₀ (by norm_num : (1 : ℚ) < 2)).mp
      (lt_of_le_of_lt ha h2)
  have h4 : L < Int.log 2 q + 1 :=
    (zpow_lt_zpow_iff_right₀ (by norm_num : (1 : ℚ) < 2)).mp
      (lt_of_le_of_lt h1 hc)
  omega

lemma roundAt_eq_down (q s : ℚ) (e : ℤ) (m0 : ℤ) (hs : q / 2 ^ e = s)
    (hm : ⌊s⌋ = m0) (hr : s - (m0 : ℚ) < 1 / 2) :
    roundAt q e = (m0 : ℚ) * 2 ^ e := by
  simp only [roundAt, hs, hm]
  rw [if_pos hr]

lemma roundAt_eq_up (q s : ℚ) (e : ℤ) (m0 : ℤ) (hs : q / 2 ^ e = s)
    (hm : ⌊s⌋ = m0) (hr : 1 / 2 < s - (m0 : ℚ)) :
    roundAt q e = ((m0 : ℚ) + 1) * 2 ^ e := by
  simp only [roundAt, hs, hm]
  rw [if_neg (by linarith), if_pos hr]
  push_cast
  ring

lemma fl64_eval_down (q s : ℚ) (L : ℤ) (m0 : ℤ)
    (h0 : 0 < q) (h1 : (2 : ℚ) ^ L ≤ q) (h2 : q < (2 : ℚ) ^ (L + 1))
    (hs : q / 2 ^ (L - 52) = s) (hm : ⌊s⌋ = m0)
    (hr : s - (m0 : ℚ) < 1 / 2) :
    fl64 q = (m0 : ℚ) * 2 ^ (L - 52) := by
  rw [fl64, if_neg (by linarith), if_neg (by linarith), roundPos,
    int_log2_eq q L h0 h1 h2, roundAt_eq_down q s (L - 52) m0 hs hm hr]

lemma fl64_eval_up (q s : ℚ) (L : ℤ) (m0 : ℤ)
    (h0 : 0 < q) (h1 : (2 : ℚ) ^ L ≤ q) (h2 : q < (2 : ℚ) ^ (L + 1))
    (hs : q / 2 ^ (L - 52) = s) (hm : ⌊s⌋ = m0)
    (hr : 1 / 2 < s - (m0 : ℚ)) :
    fl64 q = ((m0 : ℚ) + 1) * 2 ^ (L - 52) := by
  rw [fl64, if_neg (by linarith), if_neg (by linarith), roundPos,
    int_log2_eq q L h0 h1 h2, roundAt_eq_up q s (L - 52) m0 hs hm hr]

lemma int_ceil_div_natCast (n : ℤ) (d : ℕ) :
    ⌈((n : ℚ) / (d : ℚ))⌉ = -((-n) / (d : ℤ)) := by
  have h : (((-n : ℤ) : ℚ) / ((d : ℕ) : ℚ)) = -((n : ℚ) / (d : ℚ)) := by
    push_cast
    ring
  have h2 := Rat.floor_intCast_div_natCast (-n) d
  rw [h, Int.floor_neg] at h2
  rw [← h2, neg_neg]

/-- One row of the `chunk_rows` list built by `ingest_index`
(`ingest_index.py` lines 208-227); the hash codomain is abstract. -/
structure ChunkRow (β : Type) where
  page_start : Int
  page_end : Int
  chunk_index : Nat
  content : String
  content_hash : β
  token_count : Int

/-- The rows produced for the pieces of one page, with the running global
`chunk_index`. -/
def rows_of_pieces (β : Type) (sha256 : String → β) (page_number : Int) :
    List String → Nat → List (ChunkRow β)
  | [], _ => []
  | piece :: more, idx =>
      ⟨page_number, page_number, idx, piece, sha256 piece,
        _estimate_embedding_tokens piece⟩ ::
        rows_of_pieces β sha256 page_number more (idx + 1)

/-- The `chunk_rows` accumulation loop of `ingest_index` over the ordered
pages: chunk each page's content and assign consecutive `chunk_index`
values across pages. -/
def build_chunk_rows (β : Type) (sha256 : String → β) (enc? : Option Tokenizer)
    (hov : OVERLAP_TOKENS < CHUNK_SIZE_TOKENS) :
    List (Int × String) → Nat → List (ChunkRow β)
  | [], _ => []
  | (page_number, content) :: rest, idx =>
      rows_of_pieces β sha256 page_number
          (chunk_text enc? content CHUNK_SIZE_TOKENS OVERLAP_TOKENS hov) idx ++
        build_chunk_rows β sha256 enc? hov rest
          (idx + (chunk_text enc? content CHUNK_SIZE_TOKENS OVERLAP_TOKENS hov).length)

lemma rows_of_pieces_fields (β : Type) (sha256 : String → β) (pn : Int) :
    ∀ (pieces : List String) (idx : Nat) (row : ChunkRow β),
      row ∈ rows_of_pieces β sha256 pn pieces idx →
        row.content_hash = sha256 row.content ∧
        row.token_count = _estimate_embedding_tokens row.content := by
  intro pieces
  induction pieces with
  | nil => intro idx row h; cases h
  | cons p more ih =>
    intro idx row h
    rcases List.mem_cons.mp h with h1 | h1
    · subst h1
      exact ⟨rfl, rfl⟩
    · exact ih (idx + 1) row h1

lemma build_chunk_rows_fields (β : Type) (sha256 : String → β)
    (enc? : Option Tokenizer) (hov : OVERLAP_TOKENS < CHUNK_SIZE_TOKENS) :
    ∀ (pages : List (Int × String)) (idx : Nat) (row : ChunkRow β),
      row ∈ build_chunk_rows β sha256 enc? hov pages idx →
        row.content_hash = sha256 row.content ∧
        row.token_count = _estimate_embedding_tokens row.content := by
  intro pages
  induction pages with
  | nil => intro idx row h; cases h
  | cons page rest ih =>
    intro idx row h
    rcases page with ⟨pn, content⟩
    rcases List.mem_append.mp h with h1 | h1
    · exact rows_of_pieces_fields β sha256 pn _ idx row h1
    · exact ih _ row h1

/-- C9 (amended): chunking strips the page text and yields no chunks when
the result is empty; with a tokenizer it emits the successive 500-token
windows advancing by 400 tokens (100-token overlap) in order, each decoded
and stripped, empty pieces dropped; without a tokenizer it uses
2000-character windows advancing by 1600 characters (400-character overlap);
and every stored chunk row carries `content_hash = sha256(content)` and
`token_count = max(1, ceil((|content|/4.0) · 1.1))` computed in IEEE-754
binary64 arithmetic — which at some lengths exceeds by one the exact
`max(1, ⌈|content|/4 · 1.1⌉)` the original claim stated. -/
theorem chunking_spec (enc : Tokenizer) (t : String) (β : Type)
    (sha256 : String → β) (enc? : Option Tokenizer)
    (hov : OVERLAP_TOKENS < CHUNK_SIZE_TOKENS)
    (h2 : pyStrip t ≠ "") :
    (∀ t0 : String, pyStrip t0 = "" →
      chunk_text enc? t0 CHUNK_SIZE_TOKENS OVERLAP_TOKENS hov = []) ∧
    chunk_text (some enc) t CHUNK_SIZE_TOKENS OVERLAP_TOKENS hov =
      specChunks (enc.encode (pyStrip t)) 500 400
        (fun w => pyStrip (enc.decode w)) ∧
    chunk_text none t CHUNK_SIZE_TOKENS OVERLAP_TOKENS hov =
      specChunks (pyStrip t).toList 2000 1600
        (fun cs => pyStrip (String.mk cs)) ∧
    (∀ (pages : List (Int × String)) (idx : Nat) (row : ChunkRow β),
      row ∈ build_chunk_rows β sha256 enc? hov pages idx →
        row.content_hash = sha256 row.content ∧
        row.token_count =
          max 1 ⌈fl64 (fl64 (fl64 (row.content.length : ℚ) / 4) *
            fl64 (11 / 10))⌉) := by
  refine ⟨?_, ?_, ?_, ?_⟩
  · intro t0 h0
    simp [chunk_text, h0]
  · simp only [chunk_text]
    rw [if_neg h2]
    by_cases he : enc.encode (pyStrip t) = []
    · rw [he]
      simp [specChunks, specWindows, numWindows]
    · rw [if_neg he, chunkLoop_eq_spec]
      have hs2 : CHUNK_SIZE_TOKENS = 500 := rfl
      have hso : OVERLAP_TOKENS = 100 := rfl
      simp [hs2, hso, specChunks, specWindows, List.map_map, Function.comp_def]
  · simp only [chunk_text]
    rw [if_neg h2]
    rw [chunkLoop_eq_spec]
    have hs2 : CHUNK_SIZE_TOKENS = 500 := rfl
    have hso : OVERLAP_TOKENS = 100 := rfl
    simp [hs2, hso, specChunks, specWindows, List.map_map, Function.comp_def]
  · intro pages idx row h
    obtain ⟨hh, ht⟩ := build_chunk_rows_fields β sha256 enc? hov pages idx row h
    exact ⟨hh, ht⟩

/-- C9 witness: the tokenizer path of `chunk_text` agrees with the
spec-worded windowing on a concrete tokenizer and text. -/
theorem chunking_spec_witness :
    chunk_text
      (some ⟨fun s => s.toList.map Char.toNat,
             fun l => String.mk (l.map Char.ofNat)⟩)
      "hello world" CHUNK_SIZE_TOKENS OVERLAP_TOKENS (by decide) =
      specChunks
        ((⟨fun s => s.toList.map Char.toNat,
           fun l => String.mk (l.map Char.ofNat)⟩ : Tokenizer).encode
          (pyStrip "hello world")) 500 400
        (fun w => pyStrip
          ((⟨fun s => s.toList.map Char.toNat,
             fun l => String.mk (l.map Char.ofNat)⟩ : Tokenizer).decode w)) :=
  (chunking_spec
    ⟨fun s => s.toList.map Char.toNat, fun l => String.mk (l.map Char.ofNat)⟩
    "hello world" Unit (fun _ => ()) none (by decide) (by decide)).2.1

set_option maxRecDepth 4000 in
/-- C9 counterexample: for a 200-character chunk the program computes
`(200 / 4.0) * 1.1` in binary64, which rounds up to a value just above 55,
so it stores `token_count = 56`; the exact formula
`max(1, ⌈|text|/4 · 1.1⌉)` of the original claim gives 55. -/
theorem chunking_token_count_counterexample :
    _estimate_embedding_tokens (String.mk (List.replicate 200 'a')) = 56 ∧
    max 1 ⌈(((String.mk (List.replicate 200 'a')).length : ℚ) / 4) * 1.1⌉ = 55 := by
  have hlen : (String.mk (List.replicate 200 'a')).length = 200 := by
    simp [String.length]
  have hA : fl64 (200 : ℚ) = 200 := by
    have h := fl64_eval_down 200 7036874417766400 7 7036874417766400
      (by norm_num) (by norm_num) (by norm_num) (by norm_num)
      (by rw [Int.floor_eq_iff]; constructor <;> norm_num) (by norm_num)
    rw [h]
    norm_num
  have hB : fl64 (50 : ℚ) = 50 := by
    have h := fl64_eval_down 50 7036874417766400 5 7036874417766400
      (by norm_num) (by norm_num) (by norm_num) (by norm_num)
      (by rw [Int.floor_eq_iff]; constructor <;> norm_num) (by norm_num)
    rw [h]
    norm_num
  have hD : fl64 (11 / 10 : ℚ) = 4953959590107546 / 2 ^ 52 := by
    have h := fl64_eval_up (11 / 10) (24769797950537728 / 5) 0 4953959590107545
      (by norm_num) (by norm_num) (by norm_num) (by norm_num)
      (by rw [Int.floor_eq_iff]; constructor <;> norm_num) (by norm_num)
    rw [h]
    norm_num
  have hP : fl64 ((50 : ℚ) * (4953959590107546 / 2 ^ 52)) =
      7740561859543041 / 2 ^ 47 := by
    have h := fl64_eval_up ((50 : ℚ) * (4953959590107546 / 2 ^ 52))
      (61924494876344325 / 8) 5 7740561859543040
      (by norm_num) (by norm_num) (by norm_num) (by norm_num)
      (by rw [Int.floor_eq_iff]; constructor <;> norm_num) (by norm_num)
    rw [h]
    norm_num
  constructor
  · unfold _estimate_embedding_tokens
    rw [hlen]
    simp only [Nat.cast_ofNat]
    rw [hA, show ((200 : ℚ) / 4) = 50 by norm_num, hB, hD, hP]
    rw [show ((7740561859543041 : ℚ) / 2 ^ 47) =
      ((7740561859543041 : ℤ) : ℚ) / ((140737488355328 : ℕ) : ℚ) by norm_num]
    rw [int_ceil_div_natCast]
    decide
  · rw [hlen]
    simp only [Nat.cast_ofNat]
    rw [show ((200 : ℚ) / 4) * 1.1 = ((55 : ℤ) : ℚ) by
      rw [show (1.1 : ℚ) = 11 / 10 by norm_num]
      norm_num]
    rw [Int.ceil_intCast]
    decide
